import Mathlib

/-! Restaurant no-show predictor: the prediction-history pager, the prediction form
and the counter animation.

A shallow embedding of the history pager of `static/js/app.js`
(`loadPredictionHistory`, `loadMorePredictions`, `showLessPredictions`,
`updateSimpleLoadMoreButton`, `renderPredictions`) together with the part of
`static/js/api.js` it talks to (`API.getRecentPredictions`), of the form handler
`handlePredictionSubmit`, and of `animateCounter`.

Modelling decisions.

* The module-level variables of `app.js` are the fields of `State`; the two DOM
  elements the pager writes to (`#historyGrid`, `#predictionCount`) are fields
  too, as structured values instead of HTML text.
* A JavaScript `Set` of ids is a list of ids in insertion order (`IdSet`); `add`
  appends only an absent id, so the size of the set is the length of the list.
* An `async` function is split where it awaits: `f_begin` is the synchronous part
  up to the `await` and says which request is sent, `f_resume` is everything after
  the `await` (through `catch` and `finally`).  A sequentially awaited call is
  `f`, the composition of the two with the answer of the API.
* `API.getRecentPredictions(skip, limit)` either rejects with an error message or
  resolves to a parsed JSON body (`Response`).
* `console.log` and `console.error` have no effect on the state and are left out.
* The numbers of `animateCounter` are doubles with integer values; its sums,
  difference and quotient are rounded as binary64 arithmetic rounds.  The numbers
  read by `parseInt` are exact integers.
-/

namespace App

/-! ## Data model -/

/-- A prediction record of the history endpoint, with the fields `renderPredictions`
reads.  The probability `prediction_prob` is a floating point number that is only
printed; it is not part of the model. -/
structure Prediction where
  _id : String
  customer_name : String
  party_size : Nat
  lead_time_days : Nat
  deposit_paid : Bool
  risk_level : Option String
  timestamp : String
deriving DecidableEq, Repr

/-- The JSON body of `GET /predictions/recent`.  `data` and `error` may be missing
(`none`); `total_count` is a number, on which `|| 0` is the identity. -/
structure Response where
  success : Bool
  data : Option (List Prediction)
  total_count : Nat
  has_more : Bool
  error : Option String
deriving DecidableEq, Repr

/-- The query of `API.getRecentPredictions(skip, limit)`. -/
structure Request where
  skip : Nat
  limit : Nat
deriving DecidableEq, Repr

/-- How the promise of `API.getRecentPredictions` settles: `API.request` rethrows
every failure of `fetch`, of `response.json()` and every non-2xx status as an
`Error` (here: its message), and otherwise returns the body. -/
abbrev ApiResult := Except String Response

/-- The API as seen by one call of the pager. -/
abbrev Api := Nat → Nat → ApiResult

/-- A JavaScript `Set` of ids, in insertion order. -/
abbrev IdSet := List String

/-- The method `Set.prototype.has`. -/
def IdSet.has (s : IdSet) (x : String) : Bool := decide (x ∈ s)

/-- The method `Set.prototype.add`: an id already present is not added again. -/
def IdSet.add (s : IdSet) (x : String) : IdSet := if s.has x then s else s ++ [x]

/-- The load-more button inside `.load-more-container`: as built by
`updateSimpleLoadMoreButton` (enabled, with the count text) or as left by a click
(disabled, text `LOADING...`). -/
inductive LoadMoreBtn where
  | ready (loaded total : Nat)
  | loading
deriving DecidableEq, Repr

/-- The children of `#historyGrid`. -/
inductive GridItem where
  | historyCard (p : Prediction)
  | emptyNotice
  | errorMessage (message : String)
  | loadMoreContainer (btn : LoadMoreBtn)
deriving DecidableEq, Repr

/-- The status word at the end of the text of `#predictionCount`. -/
inductive StatusText where
  | showingFirst6
  | loadingMore
  | allLoaded
deriving DecidableEq, Repr

/-- The text of `#predictionCount`: `SHOWING shown OF total PREDICTIONS status`. -/
structure CountText where
  shown : Nat
  total : Nat
  status : StatusText
deriving DecidableEq, Repr

/-- The module state of `app.js` (lines 2-7), the two DOM elements the pager writes
to, and the number of `setTimeout` callbacks of `loadMorePredictions` that have not
fired yet. -/
structure State where
  currentPredictions : List Prediction
  isLoading : Bool
  currentPage : Nat
  hasMorePredictions : Bool
  loadedPredictionIds : IdSet
  totalCount : Nat
  historyGrid : List GridItem
  predictionCount : Option CountText
  pendingTimeouts : Nat
deriving DecidableEq, Repr

/-- The state when the script has been loaded: the initial values of lines 2-7, an
empty grid, no count text. -/
def State.initial : State where
  currentPredictions := []
  isLoading := false
  currentPage := 0
  hasMorePredictions := true
  loadedPredictionIds := []
  totalCount := 0
  historyGrid := []
  predictionCount := none
  pendingTimeouts := 0

/-- What a call of an `async` pager function amounts to once its promise has
settled: the state it leaves, the API requests it sent, and whether the promise
was fulfilled (`ok`) or rejected with an error message. -/
structure Outcome where
  state : State
  requests : List Request
  result : Except String Unit

/-! ## Rendering -/

/-- Is this child of the grid a `.load-more-container`? -/
def GridItem.isLoadMore : GridItem → Bool
  | .loadMoreContainer _ => true
  | _ => false

/-- The function `updatePredictionCount` (lines 452-460). -/
def updatePredictionCount (s : State) : State :=
  let actualTotal := if s.totalCount > 0 then s.totalCount else s.currentPredictions.length
  let isCollapsed := decide (s.currentPredictions.length ≤ 6) && s.hasMorePredictions
  let statusText :=
    if isCollapsed then StatusText.showingFirst6
    else if s.hasMorePredictions then StatusText.loadingMore
    else StatusText.allLoaded
  let text : CountText :=
    { shown := s.currentPredictions.length, total := actualTotal, status := statusText }
  { s with predictionCount := some text }

/-- The function `updateSimpleLoadMoreButton` (lines 463-487): the first
`.load-more-container` is removed, and a fresh one is appended to the grid when
`0 < currentPredictions.length < totalCount`. -/
def updateSimpleLoadMoreButton (s : State) : State :=
  let grid := s.historyGrid.eraseP GridItem.isLoadMore
  let grid :=
    if s.currentPredictions.length > 0 ∧ s.currentPredictions.length < s.totalCount then
      grid ++ [GridItem.loadMoreContainer
        (LoadMoreBtn.ready s.currentPredictions.length s.totalCount)]
    else grid
  updatePredictionCount { s with historyGrid := grid }

/-- The function `renderPredictions` (lines 523-563): one card per prediction,
replacing the grid (`reset`) or appended to it. -/
def renderPredictions (predictions : List Prediction) (reset : Bool) (s : State) : State :=
  let historyHTML := predictions.map GridItem.historyCard
  if reset then { s with historyGrid := historyHTML }
  else { s with historyGrid := s.historyGrid ++ historyHTML }

/-- The click handling of lines 580-585: the first `.load-more-btn` of the document
is disabled and relabelled. -/
def disableLoadMoreBtn : List GridItem → List GridItem
  | [] => []
  | GridItem.loadMoreContainer _ :: rest => GridItem.loadMoreContainer LoadMoreBtn.loading :: rest
  | item :: rest => item :: disableLoadMoreBtn rest

/-! ## Deduplication -/

/-- The `filter` of lines 389-395 and 594-600: its callback keeps a prediction whose
`_id` is not in the set and adds that id to the set at once.  The result is the kept
predictions together with the set after the last callback. -/
def filterUnique (ids : IdSet) : List Prediction → List Prediction × IdSet
  | [] => ([], ids)
  | prediction :: rest =>
    if !ids.has prediction._id then
      let r := filterUnique (ids.add prediction._id) rest
      (prediction :: r.1, r.2)
    else filterUnique ids rest

/-! ## `loadPredictionHistory` -/

/-- The value of `response.error || 'Failed to fetch predictions'`. -/
def errorOrDefault (error : Option String) : String :=
  match error with
  | some e => if e = "" then "Failed to fetch predictions" else e
  | none => "Failed to fetch predictions"

/-- Lines 352-375 of `loadPredictionHistory`: the guard on `isLoading`, the reset
of the state, and the request that is sent (`none`: the function has returned). -/
def loadPredictionHistory_begin (reset : Bool) (s : State) : State × Option Request :=
  if s.isLoading then (s, none)
  else
    let s := { s with isLoading := true }
    let s :=
      if reset then
        { s with currentPage := 0, currentPredictions := [], loadedPredictionIds := [],
                 hasMorePredictions := true, historyGrid := [] }
      else s
    let skipCount := if reset then 0 else s.currentPredictions.length
    (s, some { skip := skipCount, limit := 6 })

/-- Lines 375-434: the body of the `try` after the `await`.  `error e` is an
exception thrown with message `e`, which happens before anything is assigned. -/
def loadPredictionHistory_try (reset : Bool) (res : ApiResult) (s : State) :
    Except String State :=
  match res with
  | .error e => .error e
  | .ok response =>
    if !response.success then .error (errorOrDefault response.error)
    else
      let newPredictions := response.data.getD []
      let s := { s with totalCount := response.total_count }
      let r := filterUnique s.loadedPredictionIds newPredictions
      let uniquePredictions := r.1
      let s := { s with loadedPredictionIds := r.2 }
      let s := { s with currentPredictions := s.currentPredictions ++ uniquePredictions }
      let s := { s with hasMorePredictions := response.has_more }
      if s.currentPredictions.length = 0 ∧ reset = true then
        .ok { s with historyGrid := [GridItem.emptyNotice] }
      else
        let s :=
          if reset then
            { renderPredictions uniquePredictions true s with currentPage := 1 }
          else
            let s := renderPredictions uniquePredictions false s
            if uniquePredictions.length > 0 then { s with currentPage := s.currentPage + 1 }
            else s
        .ok (updateSimpleLoadMoreButton s)

/-- Lines 375-449: everything after the `await`: the `try` body, the `catch` that
replaces the grid by an error message with a retry button, and the `finally`.  The
second component is how the promise of the call settles: the `catch` does not
throw again, so the promise is fulfilled on every path. -/
def loadPredictionHistory_resume (reset : Bool) (res : ApiResult) (s : State) :
    State × Except String Unit :=
  let s :=
    match loadPredictionHistory_try reset res s with
    | .ok s' => s'
    | .error message => { s with historyGrid := [GridItem.errorMessage message] }
  (updateSimpleLoadMoreButton { s with isLoading := false }, .ok ())

/-- A call of `loadPredictionHistory(reset)` that is awaited before anything else
happens, against the API `api`. -/
def loadPredictionHistory (reset : Bool) (api : Api) (s : State) : Outcome :=
  match loadPredictionHistory_begin reset s with
  | (s, none) => { state := s, requests := [], result := .ok () }
  | (s, some rq) =>
    let r := loadPredictionHistory_resume reset (api rq.skip rq.limit) s
    { state := r.1, requests := [rq], result := r.2 }

/-! ## `showLessPredictions` -/

/-- The function `showLessPredictions` (lines 495-520). -/
def showLessPredictions (s : State) : State :=
  let s := { s with currentPredictions := s.currentPredictions.take 6 }
  let s := { s with currentPage := 1 }
  let s := { s with hasMorePredictions := decide (s.totalCount > 6) }
  let s := { s with loadedPredictionIds :=
    s.currentPredictions.foldl (fun (ids : IdSet) (prediction : Prediction) =>
      IdSet.add ids prediction._id) [] }
  let s := { s with isLoading := false }
  let s := renderPredictions s.currentPredictions true s
  updateSimpleLoadMoreButton s

/-! ## `loadMorePredictions` -/

/-- Lines 571-591 of `loadMorePredictions`: the guard on the number of loaded
predictions, the disabling of the button, and the request that is sent. -/
def loadMorePredictions_begin (s : State) : State × Option Request :=
  if s.currentPredictions.length ≥ s.totalCount then (s, none)
  else
    let s := { s with historyGrid := disableLoadMoreBtn s.historyGrid }
    let skipCount := s.currentPredictions.length
    (s, some { skip := skipCount, limit := 6 })

/-- Lines 591-616: everything after the `await`: the `try` body, the `catch` that
only logs, and the `setTimeout` that schedules `updateSimpleLoadMoreButton`.  The
second component is how the promise of the call settles: the `catch` does not
throw again, so the promise is fulfilled on every path. -/
def loadMorePredictions_resume (res : ApiResult) (s : State) : State × Except String Unit :=
  let s :=
    match res with
    | .error _ => s
    | .ok response =>
      if response.success = true ∧ response.data.isSome = true ∧
          (response.data.getD []).length > 0 then
        let r := filterUnique s.loadedPredictionIds (response.data.getD [])
        let newPredictions := r.1
        let s := { s with loadedPredictionIds := r.2 }
        let s := { s with currentPredictions := s.currentPredictions ++ newPredictions }
        renderPredictions newPredictions false s
      else s
  ({ s with pendingTimeouts := s.pendingTimeouts + 1 }, .ok ())

/-- The callback of the `setTimeout` of lines 613-615, when one is pending. -/
def loadMoreTimeout (s : State) : State :=
  if s.pendingTimeouts = 0 then s
  else updateSimpleLoadMoreButton { s with pendingTimeouts := s.pendingTimeouts - 1 }

/-- A call of `loadMorePredictions()` that is awaited before anything else happens,
against the API `api`. -/
def loadMorePredictions (api : Api) (s : State) : Outcome :=
  match loadMorePredictions_begin s with
  | (s, none) => { state := s, requests := [], result := .ok () }
  | (s, some rq) =>
    let r := loadMorePredictions_resume (api rq.skip rq.limit) s
    { state := r.1, requests := [rq], result := r.2 }

/-! ## Sequences of awaited calls -/

/-- One step of a session in which every call is awaited before the next one
starts: a pager operation together with the API it meets, or the firing of a
pending `setTimeout` callback of `loadMorePredictions`. -/
inductive Call where
  | loadPredictionHistory (reset : Bool) (api : Api)
  | loadMorePredictions (api : Api)
  | showLessPredictions
  | loadMoreTimeout

/-- The state after one awaited call. -/
def Call.run (c : Call) (s : State) : State :=
  match c with
  | .loadPredictionHistory reset api => (App.loadPredictionHistory reset api s).state
  | .loadMorePredictions api => (App.loadMorePredictions api s).state
  | .showLessPredictions => App.showLessPredictions s
  | .loadMoreTimeout => App.loadMoreTimeout s

/-- The state after a sequence of awaited calls, the first call first. -/
def runCalls (calls : List Call) (s : State) : State :=
  calls.foldl (fun s c => c.run s) s

/-! ## Calls that are not awaited

The event loop runs one synchronous piece of code at a time: the part of a call up
to its `await`, the part after it once the fetch has settled, a synchronous
function, or a timer callback.  `Sys` keeps the fetches that have been requested
and have not settled, and every request sent so far. -/

/-- A fetch that has been requested and has not settled, with the call that waits
for it. -/
inductive Pending where
  | history (reset : Bool) (rq : Request)
  | more (rq : Request)
deriving DecidableEq, Repr

/-- The page session: the state of `app.js`, the fetches in flight (oldest first)
and the log of all requests sent (oldest first). -/
structure Sys where
  app : State
  inFlight : List Pending
  sent : List Request
deriving DecidableEq, Repr

/-- The session when the script has been loaded. -/
def Sys.initial : Sys := { app := State.initial, inFlight := [], sent := [] }

/-- What can happen next in a session. -/
inductive Event where
  | callLoadPredictionHistory (reset : Bool)
  | callLoadMorePredictions
  | callShowLessPredictions
  | settle (i : Nat) (res : ApiResult)
  | timeout

/-- One turn of the event loop.  `settle i res` resumes the call waiting for the
`i`-th fetch in flight with the answer `res` (nothing happens when there is no such
fetch). -/
def Sys.step (y : Sys) (e : Event) : Sys :=
  match e with
  | .callLoadPredictionHistory reset =>
    match loadPredictionHistory_begin reset y.app with
    | (s, none) => { y with app := s }
    | (s, some rq) =>
      { app := s, inFlight := y.inFlight ++ [Pending.history reset rq], sent := y.sent ++ [rq] }
  | .callLoadMorePredictions =>
    match loadMorePredictions_begin y.app with
    | (s, none) => { y with app := s }
    | (s, some rq) =>
      { app := s, inFlight := y.inFlight ++ [Pending.more rq], sent := y.sent ++ [rq] }
  | .callShowLessPredictions => { y with app := showLessPredictions y.app }
  | .settle i res =>
    match y.inFlight.get? i with
    | none => y
    | some (Pending.history reset _) =>
      { y with app := (loadPredictionHistory_resume reset res y.app).1,
               inFlight := y.inFlight.eraseIdx i }
    | some (Pending.more _) =>
      { y with app := (loadMorePredictions_resume res y.app).1,
               inFlight := y.inFlight.eraseIdx i }
  | .timeout => { y with app := loadMoreTimeout y.app }

/-- The session after a sequence of events, the first event first. -/
def Sys.run (events : List Event) (y : Sys) : Sys :=
  events.foldl Sys.step y

/-! ## The invariant and the dedup rule of the specification -/

/-- The set of loaded ids lists the `_id` of the loaded predictions, in the same
order, and lists no id twice. -/
def Consistent (s : State) : Prop :=
  s.loadedPredictionIds = s.currentPredictions.map Prediction._id ∧
    s.loadedPredictionIds.Nodup

/-- Follows the wording of the specification (dedup rule), not the code: of the
returned records, in arrival order, those whose id is absent from `seen` and does
not occur at an earlier position of the same page. -/
def unseenFirstOccurrences (seen : IdSet) (data : List Prediction) : List Prediction :=
  (data.enum.filter (fun ip =>
    decide (ip.2._id ∉ seen ∧ ip.2._id ∉ (data.take ip.1).map Prediction._id))).map Prod.snd

/-! ## Sample data -/

/-- A prediction record with the given id and fixed other fields. -/
def samplePrediction (id : String) : Prediction where
  _id := id
  customer_name := "guest"
  party_size := 2
  lead_time_days := 3
  deposit_paid := false
  risk_level := some "Low"
  timestamp := "2024-01-01T00:00:00"

/-- A successful body with the given records, total and flag. -/
def samplePage (ids : List String) (total : Nat) (more : Bool) : Response where
  success := true
  data := some (ids.map samplePrediction)
  total_count := total
  has_more := more
  error := none

/-- An API that answers every request with the given body. -/
def Api.always (response : Response) : Api := fun _ _ => .ok response

/-- An API whose every call is rejected with the given message. -/
def Api.rejecting (message : String) : Api := fun _ _ => .error message

/-- A first page: six records out of fourteen. -/
def firstPage : Response := samplePage ["a", "b", "c", "d", "e", "f"] 14 true

/-- The state once the initial `loadPredictionHistory()` has shown `firstPage`. -/
def afterFirstPage : State :=
  (loadPredictionHistory true (Api.always firstPage) State.initial).state

/-- The state after a first page of six out of ten and a second page with the other
four: everything is loaded. -/
def tenOfTen : State :=
  (loadMorePredictions (Api.always (samplePage ["g", "h", "i", "j"] 10 false))
    (loadPredictionHistory true
      (Api.always (samplePage ["a", "b", "c", "d", "e", "f"] 10 true)) State.initial).state).state

/-- The state after a single page that holds both existing records: the server has
said that there is nothing more. -/
def twoOfTwo : State :=
  (loadPredictionHistory true (Api.always (samplePage ["a", "b"] 2 false)) State.initial).state

/-- A second page that overlaps the first one (`e`, `f`) and repeats an id (`g`). -/
def overlappingPage : Response := samplePage ["e", "f", "g", "g", "h"] 14 true

/-- A last page: two new records, a new total, and nothing more to fetch. -/
def lastPage : Response := samplePage ["g", "h"] 8 false

/-- Does the grid hold a load-more button that can be clicked, that is, one that is
not disabled? -/
def hasEnabledLoadMoreBtn (s : State) : Bool :=
  s.historyGrid.any fun item =>
    match item with
    | GridItem.loadMoreContainer (LoadMoreBtn.ready _ _) => true
    | _ => false

/-- A session in which the first page is shown and the load-more button is clicked
once: its fetch is in flight. -/
def oneClick : List Event :=
  [Event.callLoadPredictionHistory true, Event.settle 0 (.ok firstPage),
   Event.callLoadMorePredictions]

/-- The session `oneClick` followed by a refresh of the history (as scheduled after
a prediction has been made) whose fetch settles while the fetch of the click is
still in flight. -/
def oneClickThenRefresh : List Event :=
  oneClick ++ [Event.callLoadPredictionHistory true, Event.settle 1 (.ok firstPage)]

/-- The state after a first page of six out of twenty and two more pages of six and
of two records: fourteen unique records are loaded. -/
def fourteenOfTwenty : State :=
  (loadMorePredictions (Api.always (samplePage ["m", "n"] 20 true))
    (loadMorePredictions (Api.always (samplePage ["g", "h", "i", "j", "k", "l"] 20 true))
      (loadPredictionHistory true
        (Api.always (samplePage ["a", "b", "c", "d", "e", "f"] 20 true))
        State.initial).state).state).state

/-- The grid holds at most one `.load-more-container`.  This is so whenever the
script is the only one to build such containers: `updateSimpleLoadMoreButton`
removes one before it appends one. -/
def AtMostOneLoadMore (s : State) : Prop :=
  s.historyGrid.countP GridItem.isLoadMore ≤ 1

/-! ## A stable server -/

/-- The server assumed by the no-gap property: it holds the fixed list `records` and
answers the request `(skip, limit)` with `records[skip, skip + limit)`,
`total_count = |records|` and `has_more = (skip + limit < |records|)`. -/
def stableServer (records : List Prediction) : Api := fun skip limit =>
  .ok { success := true
        data := some ((records.drop skip).take limit)
        total_count := records.length
        has_more := decide (skip + limit < records.length)
        error := none }

/-- A pager operation without the API it meets. -/
inductive Op where
  | loadPredictionHistory (reset : Bool)
  | loadMorePredictions
  | showLessPredictions
  | loadMoreTimeout
deriving DecidableEq, Repr

/-- The awaited call of an operation against the given API. -/
def Op.against (api : Api) : Op → Call
  | .loadPredictionHistory reset => Call.loadPredictionHistory reset api
  | .loadMorePredictions => Call.loadMorePredictions api
  | .showLessPredictions => Call.showLessPredictions
  | .loadMoreTimeout => Call.loadMoreTimeout

/-- The loaded list is the beginning of the list `records` of the server, and the
total is the size of that list once it has been fetched. -/
def PrefixOf (records : List Prediction) (s : State) : Prop :=
  s.currentPredictions = records.take s.currentPredictions.length ∧
  s.currentPredictions.length ≤ s.totalCount ∧
  (s.totalCount = records.length ∨ s.totalCount = 0)

/-- Fourteen records with distinct ids. -/
def fourteenRecords : List Prediction :=
  ["a", "b", "c", "d", "e", "f", "g", "h", "i", "j", "k", "l", "m", "n"].map samplePrediction

/-! ## The end-to-end scenario -/

/-- The three pages of the end-to-end scenario: `r1` holds the six records `d1`,
`r2` holds the six records `d2` of which two have an id of `d1`, `r3` holds the two
records `d3`, new with respect to both; the ids within a page are pairwise
distinct; every page reports `total_count = 14`, and `has_more` is `true` on the
first two and `false` on the third. -/
structure ScenarioPages (r1 r2 r3 : Response) (d1 d2 d3 : List Prediction) : Prop where
  success1 : r1.success = true
  data1 : r1.data = some d1
  total1 : r1.total_count = 14
  more1 : r1.has_more = true
  length1 : d1.length = 6
  nodup1 : (d1.map Prediction._id).Nodup
  success2 : r2.success = true
  data2 : r2.data = some d2
  total2 : r2.total_count = 14
  more2 : r2.has_more = true
  length2 : d2.length = 6
  nodup2 : (d2.map Prediction._id).Nodup
  overlap2 : (d2.filter (fun p => decide (p._id ∈ d1.map Prediction._id))).length = 2
  success3 : r3.success = true
  data3 : r3.data = some d3
  total3 : r3.total_count = 14
  more3 : r3.has_more = false
  length3 : d3.length = 2
  nodup3 : (d3.map Prediction._id).Nodup
  new3 : ∀ p ∈ d3, p._id ∉ d1.map Prediction._id ∧ p._id ∉ d2.map Prediction._id

/-- The state after `loadPredictionHistory(true)` from the initial state and two
calls of `loadMorePredictions()`, each call awaited, against the given APIs. -/
def afterResetAndTwoLoadMore (api1 api2 api3 : Api) : State :=
  runCalls [Call.loadPredictionHistory true api1, Call.loadMorePredictions api2,
    Call.loadMorePredictions api3] State.initial

/-- The second page of the scenario: `e` and `f` were on the first page. -/
def scenarioPage2 : Response := samplePage ["e", "f", "g", "h", "i", "j"] 14 true

/-- The third page of the scenario: two new records, nothing more. -/
def scenarioPage3 : Response := samplePage ["k", "l"] 14 false

/-- The mock API of the scenario as it is written: the three pages for `skip` 0, 6
and 12 with `limit` 6, and a rejection for any other request. -/
def scenarioMock : Api := fun skip limit =>
  if limit = 6 ∧ skip = 0 then .ok firstPage
  else if limit = 6 ∧ skip = 6 then .ok scenarioPage2
  else if limit = 6 ∧ skip = 12 then .ok scenarioPage3
  else .error "no answer for this request"

/-- The mock API of the scenario with the third page at the request that the
second `loadMorePredictions()` really sends, `skip = 10`. -/
def scenarioMockAtTen : Api := fun skip limit =>
  if limit = 6 ∧ skip = 0 then .ok firstPage
  else if limit = 6 ∧ skip = 6 then .ok scenarioPage2
  else if limit = 6 ∧ skip = 10 then .ok scenarioPage3
  else .error "no answer for this request"

/-! ## The prediction form (`handlePredictionSubmit`) -/

/-- A property value of the object `predictionData`: a string of the form, or the
result of `parseInt`, a number or `NaN`. -/
inductive Value where
  | str (s : String)
  | num (n : Int)
  | nan
deriving DecidableEq, Repr

/-- The object `predictionData`: its properties in insertion order, each name once. -/
abbrev PredictionData := List (String × Value)

/-- The property access `predictionData[field]`; `none` is `undefined`. -/
def PredictionData.get (data : PredictionData) (field : String) : Option Value :=
  (data.find? (fun kv => kv.1 = field)).map Prod.snd

/-- The assignment `predictionData[field] = value`. -/
def PredictionData.set (data : PredictionData) (field : String) (value : Value) :
    PredictionData :=
  if data.any (fun kv => kv.1 = field) then
    data.map (fun kv => if kv.1 = field then (field, value) else kv)
  else data ++ [(field, value)]

/-- The call `Object.fromEntries(formData.entries())`: the entries of the form, in
order, a later entry with the same name replacing the value of an earlier one. -/
def fromEntries (entries : List (String × String)) : PredictionData :=
  entries.foldl (fun data kv => data.set kv.1 (Value.str kv.2)) []

/-- JavaScript truthiness of `predictionData[field]`. -/
def truthy : Option Value → Bool
  | none => false
  | some (Value.str s) => s ≠ ""
  | some (Value.num n) => n ≠ 0
  | some Value.nan => false

/-- The white space that `parseInt` skips (`StrWhiteSpaceChar`). -/
def isStrWhiteSpace (c : Char) : Bool :=
  c.toNat ∈ [0x9, 0xA, 0xB, 0xC, 0xD, 0x20, 0xA0, 0x1680, 0x2028, 0x2029, 0x202F, 0x205F,
    0x3000, 0xFEFF] || (0x2000 ≤ c.toNat && c.toNat ≤ 0x200A)

/-- The value of a character as a digit, when it is a digit or a letter. -/
def digitValue (c : Char) : Option Nat :=
  if '0' ≤ c ∧ c ≤ '9' then some (c.toNat - '0'.toNat)
  else if 'a' ≤ c ∧ c ≤ 'z' then some (c.toNat - 'a'.toNat + 10)
  else if 'A' ≤ c ∧ c ≤ 'Z' then some (c.toNat - 'A'.toNat + 10)
  else none

/-- The longest run of digits of the given radix at the start of the characters. -/
def leadingDigits (radix : Nat) : List Char → List Nat
  | [] => []
  | c :: rest =>
    match digitValue c with
    | some d => if d < radix then d :: leadingDigits radix rest else []
    | none => []

/-- The call `parseInt(string)` without radix: white space is skipped, then a sign,
then `0x` or `0X` (radix 16, otherwise 10), then the longest run of digits; `none`
is `NaN`.  The integer is exact; JavaScript rounds it to a double beyond `2^53`. -/
def parseInt (string : String) : Option Int :=
  let s := string.toList.dropWhile isStrWhiteSpace
  let signed : Int × List Char :=
    match s with
    | '-' :: rest => (-1, rest)
    | '+' :: rest => (1, rest)
    | _ => (1, s)
  let radixed : Nat × List Char :=
    match signed.2 with
    | '0' :: 'x' :: rest => (16, rest)
    | '0' :: 'X' :: rest => (16, rest)
    | _ => (10, signed.2)
  let digits := leadingDigits radixed.1 radixed.2
  if digits = [] then none
  else some (signed.1 * ((digits.foldl (fun acc d => acc * radixed.1 + d) 0 : Nat) : Int))

/-- The array `requiredFields` (lines 178-179). -/
def requiredFields : List String :=
  ["customer_name", "party_size", "deposit_paid", "lead_time_days", "is_repeated_guest",
   "previous_cancellations", "special_requests_count", "visit_month"]

/-- The array `numericFields` (lines 189-190). -/
def numericFields : List String :=
  ["party_size", "deposit_paid", "lead_time_days", "is_repeated_guest",
   "previous_cancellations", "special_requests_count", "visit_month"]

/-- The call `field.replace('_', ' ')`: only the first underscore is replaced. -/
def replaceFirstUnderscore : List Char → List Char
  | [] => []
  | c :: rest => if c = '_' then ' ' :: rest else c :: replaceFirstUnderscore rest

/-- The message of line 183. -/
def fillInMessage (field : String) : String :=
  "Please fill in the " ++ String.mk (replaceFirstUnderscore field.toList) ++ " field"

/-- The test of line 182: `!predictionData[field] && predictionData[field] !== '0'`. -/
def failsRequired (data : PredictionData) (field : String) : Bool :=
  !truthy (data.get field) && decide (data.get field ≠ some (Value.str "0"))

/-- The callback of lines 192-196 for one numeric field. -/
def convertNumeric (data : PredictionData) (field : String) : PredictionData :=
  if truthy (data.get field) then
    match data.get field with
    | some (Value.str s) =>
      data.set field (match parseInt s with
        | some n => Value.num n
        | none => Value.nan)
    | _ => data
  else data

/-- The value that the form submits for a field: that of its last entry with the
name of the field, if there is one. -/
def formValue (entries : List (String × String)) (field : String) : Option String :=
  (entries.reverse.find? (fun kv => kv.1 = field)).map Prod.snd

/-- The field is missing from the form or its value is empty. -/
def missingOrEmpty (entries : List (String × String)) (field : String) : Bool :=
  decide (formValue entries field = none ∨ formValue entries field = some "")

/-- What a submission of the form does to the outside: the messages passed to
`showError` and the objects passed to `makePrediction`, which posts each of them
with `API.makePrediction`. -/
structure SubmitOutcome where
  errors : List String
  predictions : List PredictionData
deriving DecidableEq, Repr

/-- The function `handlePredictionSubmit` (lines 162-200) on the entries of the
submitted form, with the value of `isLoading` at the time of the event. -/
def handlePredictionSubmit (isLoading : Bool) (entries : List (String × String)) :
    SubmitOutcome :=
  if isLoading then { errors := [], predictions := [] }
  else
    let predictionData := fromEntries entries
    match requiredFields.find? (failsRequired predictionData) with
    | some field => { errors := [fillInMessage field], predictions := [] }
    | none =>
      let predictionData := numericFields.foldl convertNumeric predictionData
      { errors := [], predictions := [predictionData] }

/-- A form with every required field filled in, `visit_month` 13 and `party_size`
0. -/
def outOfRangeForm : List (String × String) :=
  [("customer_name", "Ada"), ("party_size", "0"), ("deposit_paid", "1"),
   ("lead_time_days", "3"), ("is_repeated_guest", "0"), ("previous_cancellations", "0"),
   ("special_requests_count", "2"), ("visit_month", "13")]

/-- A form in which `lead_time_days` is empty and `visit_month` is missing. -/
def incompleteForm : List (String × String) :=
  [("customer_name", "Ada"), ("party_size", "2"), ("deposit_paid", "1"),
   ("lead_time_days", ""), ("is_repeated_guest", "0"), ("previous_cancellations", "0"),
   ("special_requests_count", "2")]

/-! ## The counter animation (`animateCounter`) -/

/-- The variables of one call of `animateCounter` together with what it does to the
element: `running` says that the interval timer has not been cleared, `written`
lists the values assigned to `element.textContent`, the oldest first.  The numbers
are JavaScript numbers with an integer value. -/
structure Counter where
  targetValue : Int
  increment : Int
  currentValue : Int
  running : Bool
  written : List Int
deriving DecidableEq, Repr

/-- The smallest power of two `u`, not below the given one, with `n / u < 2^53`: the
weight of the last of the 53 significant bits of `n`. -/
def ulpFrom : Nat → Nat → Nat → Nat
  | 0, _, u => u
  | fuel + 1, n, u => if n / u < 2 ^ 53 then u else ulpFrom fuel n (2 * u)

/-- The quotient `num / den` rounded to 53 significant bits, a tie going to the even
significand, as binary64 arithmetic rounds.  It is used where the result is an
integer: for integers (`den = 1`) and for quotients of at least `2^52`. -/
def roundQuotient (num den : Nat) : Nat :=
  let u := ulpFrom 2048 (num / den) 1
  let m := num / (den * u)
  let r := num % (den * u)
  let m :=
    if 2 * r > den * u then m + 1
    else if 2 * r < den * u then m
    else if m % 2 = 0 then m
    else m + 1
  m * u

/-- The double nearest to an integer: what an addition or subtraction of doubles
with integer values returns for the exact result `x`.  (Magnitudes from `2^1024`
on, which overflow to `Infinity`, are outside the model.) -/
def roundToDouble (x : Int) : Int :=
  if x < 0 then -((roundQuotient x.natAbs 1 : Nat) : Int)
  else ((roundQuotient x.natAbs 1 : Nat) : Int)

/-- The value of `Math.ceil(d / 30)` for a double `d` with an integer value: the
quotient is rounded to a double first, here as `2^64` times its value, and
`Math.ceil` is exact. -/
def ceilOfQuotientBy30 (d : Int) : Int :=
  let scaled := roundQuotient (d.natAbs * 2 ^ 64) 30
  if d < 0 then -((scaled / 2 ^ 64 : Nat) : Int)
  else (((scaled + 2 ^ 64 - 1) / 2 ^ 64 : Nat) : Int)

/-- The value of `parseInt(element.textContent) || 0`: `parseInt` returns the double
nearest to the integer that it reads. -/
def startValueOf (textContent : String) : Int :=
  match parseInt textContent with
  | some n => roundToDouble n
  | none => 0

/-- Lines 670-673 for given doubles `startValue` and `targetValue` with integer
values: the increment `Math.ceil((targetValue - startValue) / 30)`, computed on
doubles, the current value, and the timer that has just been set. -/
def counterFrom (startValue targetValue : Int) : Counter where
  targetValue := targetValue
  increment := ceilOfQuotientBy30 (roundToDouble (targetValue - startValue))
  currentValue := startValue
  running := true
  written := []

/-- The function `animateCounter` (lines 668-682) up to the first firing of its
timer. -/
def animateCounter (textContent : String) (targetValue : Int) : Counter :=
  counterFrom (startValueOf textContent) targetValue

/-- One firing of the interval timer (lines 674-680), the addition being that of
doubles; a cleared timer does not fire. -/
def Counter.tick (c : Counter) : Counter :=
  if c.running then
    let currentValue := roundToDouble (c.currentValue + c.increment)
    if currentValue ≥ c.targetValue then
      { c with currentValue := currentValue, written := c.written ++ [c.targetValue],
               running := false }
    else
      { c with currentValue := currentValue, written := c.written ++ [currentValue] }
  else c

/-- The counter after the timer has had `n` occasions to fire. -/
def Counter.ticks : Nat → Counter → Counter
  | 0, c => c
  | n + 1, c => (Counter.ticks n c).tick

/-- An API that rejects the request for the first page and answers any other
request with `lastPage`. -/
def rejectingFirstPage : Api := fun skip _ =>
  if skip = 0 then .error "boom" else .ok lastPage

/-- An API that answers the request for the first page with `firstPage` and rejects
any other request. -/
def rejectingSecondPage : Api := fun skip _ =>
  if skip = 0 then .ok firstPage else .error "busy"

/-! # Theorems -/

/-! ## Facts about sets of ids and about the deduplicating filter -/

theorem IdSet.has_iff (ids : IdSet) (x : String) : ids.has x = true ↔ x ∈ ids := by
  simp [IdSet.has]

theorem IdSet.add_of_not_mem (ids : IdSet) (x : String) (h : x ∉ ids) :
    ids.add x = ids ++ [x] := by
  simp [IdSet.add, IdSet.has, h]

/-- The set after the filter is the set before it followed by the ids of the kept
predictions, in the order in which they were kept. -/
theorem filterUnique_snd (ids : IdSet) (data : List Prediction) :
    (filterUnique ids data).2 = ids ++ (filterUnique ids data).1.map Prediction._id := by
  induction data generalizing ids with
  | nil => simp [filterUnique]
  | cons p rest ih =>
    by_cases h : p._id ∈ ids
    · simpa [filterUnique, IdSet.has, h] using ih ids
    · have e := ih (ids ++ [p._id])
      simp only [filterUnique, IdSet.has, h, decide_False, Bool.not_false, if_true,
        IdSet.add_of_not_mem ids _ h, List.map_cons]
      rw [e]
      simp

/-- The filter never puts an id into the set twice. -/
theorem filterUnique_nodup (ids : IdSet) (data : List Prediction) (hn : ids.Nodup) :
    (filterUnique ids data).2.Nodup := by
  induction data generalizing ids with
  | nil => simpa [filterUnique] using hn
  | cons p rest ih =>
    by_cases h : p._id ∈ ids
    · simpa [filterUnique, IdSet.has, h] using ih ids hn
    · have hn2 : (ids.add p._id).Nodup := by
        rw [IdSet.add_of_not_mem ids _ h]
        exact List.Nodup.append hn (List.nodup_singleton _) (by simpa using h)
      simpa [filterUnique, IdSet.has, h] using ih (ids.add p._id) hn2

/-- Rebuilding a set from ids that are pairwise distinct and not yet in it appends
them in order. -/
theorem foldl_add (l : List Prediction) (acc : IdSet)
    (hn : (acc ++ l.map Prediction._id).Nodup) :
    l.foldl (fun (ids : IdSet) (prediction : Prediction) => IdSet.add ids prediction._id) acc
      = acc ++ l.map Prediction._id := by
  induction l generalizing acc with
  | nil => simp
  | cons p rest ih =>
    have hp : p._id ∉ acc := by
      intro hmem
      have := List.nodup_append.1 hn
      exact this.2.2 hmem (by simp)
    simp only [List.foldl_cons, List.map_cons]
    rw [IdSet.add_of_not_mem acc _ hp, ih]
    · simp
    · simpa using hn

/-! ## The pager fields after each piece of code -/

section fields

variable (s : State)

@[simp] theorem updatePredictionCount_currentPredictions :
    (updatePredictionCount s).currentPredictions = s.currentPredictions := rfl
@[simp] theorem updatePredictionCount_loadedPredictionIds :
    (updatePredictionCount s).loadedPredictionIds = s.loadedPredictionIds := rfl
@[simp] theorem updatePredictionCount_totalCount :
    (updatePredictionCount s).totalCount = s.totalCount := rfl
@[simp] theorem updatePredictionCount_hasMorePredictions :
    (updatePredictionCount s).hasMorePredictions = s.hasMorePredictions := rfl
@[simp] theorem updatePredictionCount_isLoading :
    (updatePredictionCount s).isLoading = s.isLoading := rfl

@[simp] theorem updateSimpleLoadMoreButton_currentPredictions :
    (updateSimpleLoadMoreButton s).currentPredictions = s.currentPredictions := rfl
@[simp] theorem updateSimpleLoadMoreButton_loadedPredictionIds :
    (updateSimpleLoadMoreButton s).loadedPredictionIds = s.loadedPredictionIds := rfl
@[simp] theorem updateSimpleLoadMoreButton_totalCount :
    (updateSimpleLoadMoreButton s).totalCount = s.totalCount := rfl
@[simp] theorem updateSimpleLoadMoreButton_hasMorePredictions :
    (updateSimpleLoadMoreButton s).hasMorePredictions = s.hasMorePredictions := rfl
@[simp] theorem updateSimpleLoadMoreButton_isLoading :
    (updateSimpleLoadMoreButton s).isLoading = s.isLoading := rfl

variable (predictions : List Prediction) (reset : Bool)

@[simp] theorem renderPredictions_currentPredictions :
    (renderPredictions predictions reset s).currentPredictions = s.currentPredictions := by
  cases reset <;> rfl
@[simp] theorem renderPredictions_loadedPredictionIds :
    (renderPredictions predictions reset s).loadedPredictionIds = s.loadedPredictionIds := by
  cases reset <;> rfl
@[simp] theorem renderPredictions_totalCount :
    (renderPredictions predictions reset s).totalCount = s.totalCount := by
  cases reset <;> rfl
@[simp] theorem renderPredictions_hasMorePredictions :
    (renderPredictions predictions reset s).hasMorePredictions = s.hasMorePredictions := by
  cases reset <;> rfl
@[simp] theorem renderPredictions_isLoading :
    (renderPredictions predictions reset s).isLoading = s.isLoading := by
  cases reset <;> rfl

end fields

/-- The body of the `try` of `loadPredictionHistory` on a body with
`success = true`: it does not throw, and the pager fields are as follows. -/
theorem loadPredictionHistory_try_ok (reset : Bool) (response : Response) (s : State)
    (h : response.success = true) :
    ∃ s', loadPredictionHistory_try reset (.ok response) s = .ok s' ∧
      s'.currentPredictions = s.currentPredictions ++
        (filterUnique s.loadedPredictionIds (response.data.getD [])).1 ∧
      s'.loadedPredictionIds = (filterUnique s.loadedPredictionIds (response.data.getD [])).2 ∧
      s'.totalCount = response.total_count ∧
      s'.hasMorePredictions = response.has_more ∧
      s'.isLoading = s.isLoading := by
  unfold loadPredictionHistory_try
  simp only [h, Bool.not_true, Bool.false_eq_true, if_false]
  split
  · exact ⟨_, rfl, rfl, rfl, rfl, rfl, rfl⟩
  · cases reset
    · simp only [Bool.false_eq_true, if_false]
      split <;> exact ⟨_, rfl, by simp, by simp, by simp, by simp, by simp⟩
    · exact ⟨_, rfl, by simp, by simp, by simp, by simp, by simp⟩

/-- The body of the `try` of `loadPredictionHistory` throws when the fetch is
rejected and when the body has `success = false`. -/
theorem loadPredictionHistory_try_error (reset : Bool) (res : ApiResult) (s : State)
    (h : ∀ response, res = .ok response → response.success = false) :
    ∃ message, loadPredictionHistory_try reset res s = .error message := by
  cases res with
  | error e => exact ⟨e, rfl⟩
  | ok response =>
    have := h response rfl
    exact ⟨errorOrDefault response.error, by simp [loadPredictionHistory_try, this]⟩

/-! ## The filter of the code and the dedup rule of the specification -/

theorem filterUnique_fst_aux (seen : IdSet) (data pre : List Prediction) (ids : IdSet)
    (hids : ∀ x, x ∈ ids ↔ x ∈ seen ∨ x ∈ pre.map Prediction._id) :
    (filterUnique ids data).1 =
      ((data.enumFrom pre.length).filter (fun ip =>
        decide (ip.2._id ∉ seen ∧
          ip.2._id ∉ ((pre ++ data).take ip.1).map Prediction._id))).map Prod.snd := by
  induction data generalizing pre ids with
  | nil => simp [filterUnique]
  | cons p rest ih =>
    have htake : (pre ++ p :: rest).take pre.length = pre := by simp
    have hcond : (p._id ∉ seen ∧ p._id ∉ pre.map Prediction._id) ↔ p._id ∉ ids := by
      rw [hids]
      tauto
    by_cases h : p._id ∈ ids
    · have ih2 := ih (pre ++ [p]) ids (by
        intro x
        rw [hids x]
        constructor
        · rintro (hx | hx)
          · exact Or.inl hx
          · exact Or.inr (by simp at hx ⊢; exact Or.inl hx)
        · rintro (hx | hx)
          · exact Or.inl hx
          · simp only [List.map_append, List.map_cons, List.map_nil, List.mem_append,
              List.mem_singleton] at hx
            rcases hx with hx | hx
            · exact Or.inr hx
            · exact (hids x).1 (hx ▸ h))
      simp only [List.length_append, List.length_singleton, List.append_assoc,
        List.singleton_append] at ih2
      have hc : ¬ (p._id ∉ seen ∧ p._id ∉ pre.map Prediction._id) := by
        rw [hcond]
        exact fun hn => hn h
      simp only [filterUnique, IdSet.has, h, decide_True, Bool.not_true, Bool.false_eq_true,
        if_false, List.enumFrom_cons, List.filter_cons, htake, hc, decide_False]
      exact ih2
    · have ih2 := ih (pre ++ [p]) (ids.add p._id) (by
        intro x
        rw [IdSet.add_of_not_mem ids _ h]
        simp only [List.mem_append, List.mem_singleton, List.map_append, List.map_cons,
          List.map_nil, hids x]
        tauto)
      simp only [List.length_append, List.length_singleton, List.append_assoc,
        List.singleton_append] at ih2
      have hc : p._id ∉ seen ∧ p._id ∉ pre.map Prediction._id := hcond.2 h
      simp only [filterUnique, IdSet.has, h, decide_False, Bool.not_false, if_true,
        List.enumFrom_cons, List.filter_cons, htake, hc, decide_True, List.map_cons]
      rw [ih2]
      simp

/-- The records kept by the filter of the code are those the specification
describes. -/
theorem filterUnique_fst (ids : IdSet) (data : List Prediction) :
    (filterUnique ids data).1 = unseenFirstOccurrences ids data := by
  have h := filterUnique_fst_aux ids data [] ids (by simp)
  simpa [unseenFirstOccurrences, List.enum] using h

/-! ## The invariant of the pager -/

theorem consistent_initial : Consistent State.initial := by
  simp [Consistent, State.initial]

theorem Consistent.congr {s t : State} (h : Consistent s)
    (h1 : t.currentPredictions = s.currentPredictions)
    (h2 : t.loadedPredictionIds = s.loadedPredictionIds) : Consistent t := by
  unfold Consistent at *
  rw [h1, h2]
  exact h

theorem Consistent.append_filtered {s t : State} (h : Consistent s) (data : List Prediction)
    (h1 : t.currentPredictions =
      s.currentPredictions ++ (filterUnique s.loadedPredictionIds data).1)
    (h2 : t.loadedPredictionIds = (filterUnique s.loadedPredictionIds data).2) :
    Consistent t := by
  refine ⟨?_, ?_⟩
  · rw [h1, h2, filterUnique_snd, List.map_append, ← h.1]
  · rw [h2]
    exact filterUnique_nodup _ _ h.2

theorem consistent_loadPredictionHistory_begin (reset : Bool) (s : State)
    (h : Consistent s) : Consistent (loadPredictionHistory_begin reset s).1 := by
  unfold loadPredictionHistory_begin
  split
  · exact h
  · cases reset
    · exact h.congr rfl rfl
    · simp [Consistent]

theorem consistent_loadPredictionHistory_resume (reset : Bool) (res : ApiResult) (s : State)
    (h : Consistent s) : Consistent (loadPredictionHistory_resume reset res s).1 := by
  by_cases hs : ∃ r, res = .ok r ∧ r.success = true
  · obtain ⟨r, rfl, hr⟩ := hs
    obtain ⟨s', e, h1, h2, _⟩ := loadPredictionHistory_try_ok reset r s hr
    simp only [loadPredictionHistory_resume, e]
    exact (h.append_filtered _ h1 h2).congr rfl rfl
  · obtain ⟨m, e⟩ := loadPredictionHistory_try_error reset res s (by
      intro r hr
      by_contra hc
      exact hs ⟨r, hr, by simpa using hc⟩)
    simp only [loadPredictionHistory_resume, e]
    exact h.congr rfl rfl

theorem consistent_loadPredictionHistory (reset : Bool) (api : Api) (s : State)
    (h : Consistent s) : Consistent (loadPredictionHistory reset api s).state := by
  have hb := consistent_loadPredictionHistory_begin reset s h
  unfold loadPredictionHistory
  split
  next s1 e => rw [e] at hb; exact hb
  next s1 rq e =>
    rw [e] at hb
    exact consistent_loadPredictionHistory_resume reset _ s1 hb

theorem consistent_loadMorePredictions_begin (s : State) (h : Consistent s) :
    Consistent (loadMorePredictions_begin s).1 := by
  unfold loadMorePredictions_begin
  split
  · exact h
  · exact h.congr rfl rfl

theorem consistent_loadMorePredictions_resume (res : ApiResult) (s : State)
    (h : Consistent s) : Consistent (loadMorePredictions_resume res s).1 := by
  unfold loadMorePredictions_resume
  cases res with
  | error e => exact h.congr rfl rfl
  | ok response =>
    simp only
    split
    · exact h.append_filtered (response.data.getD []) (by simp) (by simp)
    · exact h.congr rfl rfl

theorem consistent_loadMorePredictions (api : Api) (s : State) (h : Consistent s) :
    Consistent (loadMorePredictions api s).state := by
  have hb := consistent_loadMorePredictions_begin s h
  unfold loadMorePredictions
  split
  next s1 e => rw [e] at hb; exact hb
  next s1 rq e =>
    rw [e] at hb
    exact consistent_loadMorePredictions_resume _ s1 hb

theorem consistent_showLessPredictions (s : State) (h : Consistent s) :
    Consistent (showLessPredictions s) := by
  have hn : ((s.currentPredictions.take 6).map Prediction._id).Nodup := by
    rw [List.map_take]
    exact List.Nodup.sublist (List.take_sublist _ _) (h.1 ▸ h.2)
  have hf := foldl_add (s.currentPredictions.take 6) [] (by simpa using hn)
  refine ⟨?_, ?_⟩
  · simpa [showLessPredictions] using hf
  · have e : (showLessPredictions s).loadedPredictionIds
        = (s.currentPredictions.take 6).map Prediction._id := by
      simpa [showLessPredictions] using hf
    rw [e]
    exact hn

theorem consistent_loadMoreTimeout (s : State) (h : Consistent s) :
    Consistent (loadMoreTimeout s) := by
  unfold loadMoreTimeout
  split
  · exact h
  · exact h.congr rfl rfl

theorem consistent_run (c : Call) (s : State) (h : Consistent s) : Consistent (c.run s) := by
  cases c with
  | loadPredictionHistory reset api => exact consistent_loadPredictionHistory reset api s h
  | loadMorePredictions api => exact consistent_loadMorePredictions api s h
  | showLessPredictions => exact consistent_showLessPredictions s h
  | loadMoreTimeout => exact consistent_loadMoreTimeout s h

theorem consistent_runCalls (calls : List Call) (s : State) (h : Consistent s) :
    Consistent (runCalls calls s) := by
  induction calls generalizing s with
  | nil => exact h
  | cons c rest ih => exact ih (c.run s) (consistent_run c s h)

/-! ## What the two fetching operations do to the pager fields -/

/-- The invariant also holds when calls are not awaited: every turn of the event
loop keeps it, in whatever order calls start and fetches settle. -/
theorem consistent_sys_step (y : Sys) (e : Event) (h : Consistent y.app) :
    Consistent (y.step e).app := by
  cases e with
  | callLoadPredictionHistory reset =>
    have hb := consistent_loadPredictionHistory_begin reset y.app h
    simp only [Sys.step]
    split
    next s1 e1 => rw [e1] at hb; exact hb
    next s1 rq e1 => rw [e1] at hb; exact hb
  | callLoadMorePredictions =>
    have hb := consistent_loadMorePredictions_begin y.app h
    simp only [Sys.step]
    split
    next s1 e1 => rw [e1] at hb; exact hb
    next s1 rq e1 => rw [e1] at hb; exact hb
  | callShowLessPredictions => exact consistent_showLessPredictions y.app h
  | settle i res =>
    simp only [Sys.step]
    split
    · exact h
    · exact consistent_loadPredictionHistory_resume _ res y.app h
    · exact consistent_loadMorePredictions_resume res y.app h
  | timeout => exact consistent_loadMoreTimeout y.app h

theorem consistent_sys_run (events : List Event) (y : Sys) (h : Consistent y.app) :
    Consistent (Sys.run events y).app := by
  induction events generalizing y with
  | nil => exact h
  | cons e rest ih => exact ih (y.step e) (consistent_sys_step y e h)

/-- A record of the dedup rule of the specification has an id that was not seen. -/
theorem not_seen_of_mem_unseenFirstOccurrences (seen : IdSet) (data : List Prediction)
    (p : Prediction) (h : p ∈ unseenFirstOccurrences seen data) : p._id ∉ seen := by
  unfold unseenFirstOccurrences at h
  simp only [List.mem_map, List.mem_filter, decide_eq_true_eq] at h
  obtain ⟨ip, ⟨_, hc⟩, rfl⟩ := h
  exact hc.1

/-- Past the guard of line 574, `loadMorePredictions` disables the button, asks for
the page that starts at the number of loaded records, and resumes with the answer. -/
theorem loadMorePredictions_of_lt (api : Api) (s : State)
    (h : s.currentPredictions.length < s.totalCount) :
    loadMorePredictions api s =
      { state := (loadMorePredictions_resume (api s.currentPredictions.length 6)
          { s with historyGrid := disableLoadMoreBtn s.historyGrid }).1
        requests := [{ skip := s.currentPredictions.length, limit := 6 }]
        result := (loadMorePredictions_resume (api s.currentPredictions.length 6)
          { s with historyGrid := disableLoadMoreBtn s.historyGrid }).2 } := by
  simp [loadMorePredictions, loadMorePredictions_begin, Nat.not_le.2 h]

/-- At the guard of line 574, `loadMorePredictions` returns at once. -/
theorem loadMorePredictions_of_ge (api : Api) (s : State)
    (h : s.currentPredictions.length ≥ s.totalCount) :
    loadMorePredictions api s = { state := s, requests := [], result := .ok () } := by
  simp [loadMorePredictions, loadMorePredictions_begin, h]

/-- The code after the `await` of `loadMorePredictions` on a body with
`success = true`. -/
theorem loadMorePredictions_resume_ok (response : Response) (s : State)
    (h : response.success = true) :
    (loadMorePredictions_resume (.ok response) s).1.currentPredictions =
        s.currentPredictions ++
          (filterUnique s.loadedPredictionIds (response.data.getD [])).1 ∧
    (loadMorePredictions_resume (.ok response) s).1.loadedPredictionIds =
        (filterUnique s.loadedPredictionIds (response.data.getD [])).2 := by
  unfold loadMorePredictions_resume
  simp only [h, true_and]
  split
  · simp
  · next hc =>
    have he : response.data.getD [] = [] := by
      cases hd : response.data with
      | none => rfl
      | some d =>
        simp only [hd, Option.isSome_some, Option.getD_some, true_and, gt_iff_lt,
          List.length_pos, ne_eq, not_not] at hc
        simpa using hc
    simp [he, filterUnique]

/-- The code after the `await` of `loadMorePredictions` never assigns `totalCount`
or `hasMorePredictions`, and it fulfils the promise. -/
theorem loadMorePredictions_resume_frame (res : ApiResult) (s : State) :
    (loadMorePredictions_resume res s).1.totalCount = s.totalCount ∧
    (loadMorePredictions_resume res s).1.hasMorePredictions = s.hasMorePredictions ∧
    (loadMorePredictions_resume res s).2 = .ok () := by
  refine ⟨?_, ?_, rfl⟩
  all_goals
    unfold loadMorePredictions_resume
    cases res with
    | error e => rfl
    | ok response =>
      simp only
      split
      · simp
      · rfl

/-- The code after the `await` of `loadMorePredictions` when the fetch was rejected. -/
theorem loadMorePredictions_resume_error (e : String) (s : State) :
    (loadMorePredictions_resume (.error e) s).1 =
      { s with pendingTimeouts := s.pendingTimeouts + 1 } := rfl

/-- With no load in progress, `loadPredictionHistory(true)` clears the pager, asks
for the first page, and resumes with the answer. -/
theorem loadPredictionHistory_reset_of_idle (api : Api) (s : State)
    (h : s.isLoading = false) :
    loadPredictionHistory true api s =
      { state := (loadPredictionHistory_resume true (api 0 6)
          { s with isLoading := true, currentPage := 0, currentPredictions := [],
                   loadedPredictionIds := [], hasMorePredictions := true,
                   historyGrid := [] }).1
        requests := [{ skip := 0, limit := 6 }]
        result := (loadPredictionHistory_resume true (api 0 6)
          { s with isLoading := true, currentPage := 0, currentPredictions := [],
                   loadedPredictionIds := [], hasMorePredictions := true,
                   historyGrid := [] }).2 } := by
  simp [loadPredictionHistory, loadPredictionHistory_begin, h]

/-- The code after the `await` of `loadPredictionHistory` when the fetch was
rejected or answered with `success = false`: the grid shows the error message, the
loading flag is cleared, the promise is fulfilled. -/
theorem loadPredictionHistory_resume_failed (reset : Bool) (res : ApiResult) (s : State)
    (h : ∀ response, res = .ok response → response.success = false) :
    ∃ message,
      loadPredictionHistory_try reset res s = .error message ∧
      loadPredictionHistory_resume reset res s =
        (updateSimpleLoadMoreButton
          { s with historyGrid := [GridItem.errorMessage message], isLoading := false },
         .ok ()) := by
  obtain ⟨m, e⟩ := loadPredictionHistory_try_error reset res s h
  exact ⟨m, e, by simp only [loadPredictionHistory_resume, e]⟩

/-- The code after the `await` of `loadPredictionHistory` on a body with
`success = true`. -/
theorem loadPredictionHistory_resume_ok (reset : Bool) (response : Response) (s : State)
    (h : response.success = true) :
    (loadPredictionHistory_resume reset (.ok response) s).1.currentPredictions =
        s.currentPredictions ++
          (filterUnique s.loadedPredictionIds (response.data.getD [])).1 ∧
    (loadPredictionHistory_resume reset (.ok response) s).1.loadedPredictionIds =
        (filterUnique s.loadedPredictionIds (response.data.getD [])).2 ∧
    (loadPredictionHistory_resume reset (.ok response) s).1.totalCount =
        response.total_count ∧
    (loadPredictionHistory_resume reset (.ok response) s).1.hasMorePredictions =
        response.has_more ∧
    (loadPredictionHistory_resume reset (.ok response) s).1.isLoading = false := by
  obtain ⟨s', e, h1, h2, h3, h4, _⟩ := loadPredictionHistory_try_ok reset response s h
  simp only [loadPredictionHistory_resume, e]
  exact ⟨h1, h2, h3, h4, rfl⟩

/-- On a page whose ids are pairwise distinct and not in the set, the filter keeps
every record. -/
theorem filterUnique_fst_of_nodup (ids : IdSet) (data : List Prediction)
    (hn : (ids ++ data.map Prediction._id).Nodup) : (filterUnique ids data).1 = data := by
  induction data generalizing ids with
  | nil => rfl
  | cons p rest ih =>
    have hp : p._id ∉ ids := by
      intro hmem
      exact (List.nodup_append.1 hn).2.2 hmem (by simp)
    have e := ih (ids ++ [p._id]) (by simpa using hn)
    simp only [filterUnique, IdSet.has, hp, decide_False, Bool.not_false, if_true,
      IdSet.add_of_not_mem ids _ hp]
    rw [e]

/-- `loadMorePredictions` never assigns `totalCount` or `hasMorePredictions` and
always fulfils its promise. -/
theorem loadMorePredictions_frame (api : Api) (s : State) :
    (loadMorePredictions api s).state.totalCount = s.totalCount ∧
    (loadMorePredictions api s).state.hasMorePredictions = s.hasMorePredictions ∧
    (loadMorePredictions api s).result = .ok () := by
  by_cases h : s.currentPredictions.length < s.totalCount
  · rw [loadMorePredictions_of_lt api s h]
    exact loadMorePredictions_resume_frame _ _
  · rw [loadMorePredictions_of_ge api s (Nat.le_of_not_lt h)]
    exact ⟨rfl, rfl, rfl⟩

/-! ## Claims C1 to C10 -/

/-- C1 (dedup invariant): starting from the initial module state, after every finite
sequence of awaited calls of `loadPredictionHistory(true)`,
`loadPredictionHistory(false)`, `loadMorePredictions` and `showLessPredictions`
(and firings of the load-more timer), whatever the API answers or however it fails
in each call, no two records of `currentPredictions` have the same `_id`. -/
theorem dedup_invariant (calls : List Call) :
    (runCalls calls State.initial).currentPredictions.Pairwise
      (fun p q => p._id ≠ q._id) := by
  have h := consistent_runCalls calls State.initial consistent_initial
  have hn : ((runCalls calls State.initial).currentPredictions.map Prediction._id).Nodup :=
    h.1 ▸ h.2
  exact List.pairwise_map.1 hn

/-- C2 (the set of seen ids stays 1:1 with the loaded list): starting from the
initial module state, after every awaited pager operation, whether its API call
succeeded or failed, an id is in `loadedPredictionIds` exactly when it is the `_id`
of a record of `currentPredictions`, the set holds no id twice, and its size is
`currentPredictions.length`. -/
theorem seenIds_matches_loaded (calls : List Call) :
    (∀ x, x ∈ (runCalls calls State.initial).loadedPredictionIds ↔
        ∃ p ∈ (runCalls calls State.initial).currentPredictions, p._id = x) ∧
    (runCalls calls State.initial).loadedPredictionIds.Nodup ∧
    (runCalls calls State.initial).loadedPredictionIds.length =
      (runCalls calls State.initial).currentPredictions.length := by
  have h := consistent_runCalls calls State.initial consistent_initial
  refine ⟨?_, h.2, ?_⟩
  · intro x
    rw [h.1]
    simp
  · rw [h.1]
    simp

/-- C3 (dedup rule of `loadMorePredictions`): for every pager state from which the
call gets past the guard of line 574, so that a request is sent, and every body with
`success = true` that answers it, the new `currentPredictions` is the old one
followed by the returned records whose `_id` was absent from `loadedPredictionIds`
and that are the first of the page with that `_id`, in arrival order; the ids of
the appended records are added to `loadedPredictionIds` in the same order; no
appended record has an id that was already seen. -/
theorem loadMore_dedup_rule (s : State) (api : Api) (response : Response)
    (hcall : s.currentPredictions.length < s.totalCount)
    (hres : api s.currentPredictions.length 6 = .ok response)
    (hsucc : response.success = true) :
    (loadMorePredictions api s).state.currentPredictions =
      s.currentPredictions ++
        unseenFirstOccurrences s.loadedPredictionIds (response.data.getD []) ∧
    (loadMorePredictions api s).state.loadedPredictionIds =
      s.loadedPredictionIds ++
        (unseenFirstOccurrences s.loadedPredictionIds (response.data.getD [])).map
          Prediction._id ∧
    (∀ p ∈ unseenFirstOccurrences s.loadedPredictionIds (response.data.getD []),
      p._id ∉ s.loadedPredictionIds) := by
  rw [loadMorePredictions_of_lt api s hcall, hres]
  have h := loadMorePredictions_resume_ok response
    { s with historyGrid := disableLoadMoreBtn s.historyGrid } hsucc
  refine ⟨?_, ?_, fun p hp => not_seen_of_mem_unseenFirstOccurrences _ _ p hp⟩
  · rw [← filterUnique_fst]
    exact h.1
  · rw [← filterUnique_fst, ← filterUnique_snd]
    exact h.2

/-- The dedup rule at the state after the first page `a` to `f`, with a second page
`e, f, g, g, h`: exactly `g` (once) and `h` are appended. -/
theorem loadMore_dedup_rule_witness :
    afterFirstPage.currentPredictions.length < afterFirstPage.totalCount ∧
    (loadMorePredictions (Api.always overlappingPage) afterFirstPage).state.currentPredictions
      = afterFirstPage.currentPredictions ++
        unseenFirstOccurrences afterFirstPage.loadedPredictionIds
          (overlappingPage.data.getD []) ∧
    unseenFirstOccurrences afterFirstPage.loadedPredictionIds (overlappingPage.data.getD [])
      = [samplePrediction "g", samplePrediction "h"] :=
  ⟨by decide,
   (loadMore_dedup_rule afterFirstPage (Api.always overlappingPage) overlappingPage
      (by decide) rfl rfl).1,
   by decide⟩

/-- C4 (evaluation at the failing input): after the first page (`totalCount = 14`,
`hasMorePredictions = true`), `loadMorePredictions` receives a successful body with
`total_count = 8` and `has_more = false`; it sends its request and appends the two
new records, and `hasMorePredictions` is still `true` and `totalCount` still `14`. -/
theorem loadMore_keeps_stale_total_and_flag :
    lastPage.success = true ∧ lastPage.has_more = false ∧ lastPage.total_count = 8 ∧
    (loadMorePredictions (Api.always lastPage) afterFirstPage).requests
      = [{ skip := 6, limit := 6 }] ∧
    (loadMorePredictions (Api.always lastPage) afterFirstPage).state.currentPredictions.length
      = 8 ∧
    (loadMorePredictions (Api.always lastPage) afterFirstPage).state.hasMorePredictions
      = true ∧
    (loadMorePredictions (Api.always lastPage) afterFirstPage).state.totalCount = 14 := by
  decide

/-- C5 (no-op when exhausted): for every pager state with `totalCount > 0` and
`currentPredictions.length >= totalCount` and every API, `loadMorePredictions` sends
no request and leaves the whole state, in particular `currentPredictions`,
`loadedPredictionIds`, `totalCount` and `hasMorePredictions`, unchanged.  (The code
does not use `totalCount > 0`.) -/
theorem loadMore_noop_when_exhausted (api : Api) (s : State)
    (h : s.totalCount > 0 ∧ s.currentPredictions.length ≥ s.totalCount) :
    (loadMorePredictions api s).requests = [] ∧ (loadMorePredictions api s).state = s := by
  rw [loadMorePredictions_of_ge api s h.2]
  exact ⟨rfl, rfl⟩

/-- No-op when exhausted, with `totalCount = 10` and 10 records loaded, against an
API that would return more. -/
theorem loadMore_noop_when_exhausted_witness :
    tenOfTen.totalCount = 10 ∧ tenOfTen.currentPredictions.length = 10 ∧
    (loadMorePredictions (Api.always lastPage) tenOfTen).requests = [] ∧
    (loadMorePredictions (Api.always lastPage) tenOfTen).state = tenOfTen :=
  ⟨by decide, by decide,
   loadMore_noop_when_exhausted (Api.always lastPage) tenOfTen ⟨by decide, by decide⟩⟩

/-- C6 (evaluation at the failing input): the first page is shown and
`loadMorePredictions()` is called; one fetch is in flight.  A second
`loadMorePredictions()` before that fetch settles sends the same request again and
two fetches are in flight.  The same happens through the page alone: the click
disables the button, a refresh of the history that settles in the meantime builds a
new enabled button, and a click on it sends a second request while the first
load-more fetch is still in flight. -/
theorem second_loadMore_sends_second_request :
    (Sys.run oneClick Sys.initial).inFlight = [Pending.more { skip := 6, limit := 6 }] ∧
    (Sys.run (oneClick ++ [Event.callLoadMorePredictions]) Sys.initial).inFlight
      = [Pending.more { skip := 6, limit := 6 }, Pending.more { skip := 6, limit := 6 }] ∧
    (Sys.run (oneClick ++ [Event.callLoadMorePredictions]) Sys.initial).sent
      = [{ skip := 0, limit := 6 }, { skip := 6, limit := 6 }, { skip := 6, limit := 6 }] ∧
    hasEnabledLoadMoreBtn (Sys.run oneClick Sys.initial).app = false ∧
    (Sys.run oneClickThenRefresh Sys.initial).inFlight
      = [Pending.more { skip := 6, limit := 6 }] ∧
    hasEnabledLoadMoreBtn (Sys.run oneClickThenRefresh Sys.initial).app = true ∧
    (Sys.run (oneClickThenRefresh ++ [Event.callLoadMorePredictions]) Sys.initial).inFlight
      = [Pending.more { skip := 6, limit := 6 }, Pending.more { skip := 6, limit := 6 }] := by
  decide

/-- C7 (atomicity of `loadMorePredictions` on failure): for every pager state, if
the fetch of `loadMorePredictions` is rejected, then `currentPredictions`,
`loadedPredictionIds`, `totalCount` and `hasMorePredictions` are after the call what
they were before it. -/
theorem loadMore_failure_leaves_pager (api : Api) (s : State) (e : String)
    (hfail : api s.currentPredictions.length 6 = .error e) :
    (loadMorePredictions api s).state.currentPredictions = s.currentPredictions ∧
    (loadMorePredictions api s).state.loadedPredictionIds = s.loadedPredictionIds ∧
    (loadMorePredictions api s).state.totalCount = s.totalCount ∧
    (loadMorePredictions api s).state.hasMorePredictions = s.hasMorePredictions := by
  by_cases h : s.currentPredictions.length < s.totalCount
  · rw [loadMorePredictions_of_lt api s h, hfail, loadMorePredictions_resume_error]
    exact ⟨rfl, rfl, rfl, rfl⟩
  · rw [loadMorePredictions_of_ge api s (Nat.le_of_not_lt h)]
    exact ⟨rfl, rfl, rfl, rfl⟩

/-- Atomicity on failure at the state after the first page, where the request is
really sent and rejected. -/
theorem loadMore_failure_leaves_pager_witness :
    (loadMorePredictions (Api.rejecting "boom") afterFirstPage).requests
      = [{ skip := 6, limit := 6 }] ∧
    (loadMorePredictions (Api.rejecting "boom") afterFirstPage).state.currentPredictions
      = afterFirstPage.currentPredictions ∧
    (loadMorePredictions (Api.rejecting "boom") afterFirstPage).state.loadedPredictionIds
      = afterFirstPage.loadedPredictionIds ∧
    (loadMorePredictions (Api.rejecting "boom") afterFirstPage).state.totalCount
      = afterFirstPage.totalCount ∧
    (loadMorePredictions (Api.rejecting "boom") afterFirstPage).state.hasMorePredictions
      = afterFirstPage.hasMorePredictions :=
  ⟨by decide, loadMore_failure_leaves_pager (Api.rejecting "boom") afterFirstPage "boom" rfl⟩

/-- C8 (counterexample): at the state after the first page, with an API whose every
call is rejected with `boom`, the promise of `loadPredictionHistory(true)` is
fulfilled, not rejected, and the six loaded records are gone; the promise of
`loadMorePredictions()` is fulfilled as well. -/
theorem error_propagation_counterexample :
    (loadPredictionHistory true (Api.rejecting "boom") afterFirstPage).requests
      = [{ skip := 0, limit := 6 }] ∧
    (loadPredictionHistory true (Api.rejecting "boom") afterFirstPage).result = .ok () ∧
    afterFirstPage.currentPredictions.length = 6 ∧
    (loadPredictionHistory true (Api.rejecting "boom") afterFirstPage).state.currentPredictions
      = [] ∧
    (loadMorePredictions (Api.rejecting "boom") afterFirstPage).requests
      = [{ skip := 6, limit := 6 }] ∧
    (loadMorePredictions (Api.rejecting "boom") afterFirstPage).result = .ok () :=
  ⟨by decide, rfl, by decide, by decide, by decide, rfl⟩

/-- C8 (amended): whenever the fetch of `loadPredictionHistory(true)`, called with no
load in progress, is rejected, the operation catches the error and its promise is
fulfilled; it puts the error message, with a retry button, in the history grid and
leaves the pager as its reset made it: no records, no ids, `totalCount` as before
the call.  Whenever the fetch of `loadMorePredictions` is rejected, in whatever
state, the operation catches the error and its promise is fulfilled, and it leaves
`currentPredictions`, `loadedPredictionIds`, `totalCount` and
`hasMorePredictions` as they were before the call.  Each half holds on its own:
the other request may succeed or fail with another message. -/
theorem api_failure_is_caught (s : State) (api : Api) :
    (∀ e, s.isLoading = false → api 0 6 = .error e →
      (loadPredictionHistory true api s).result = .ok () ∧
      (loadPredictionHistory true api s).state.historyGrid = [GridItem.errorMessage e] ∧
      (loadPredictionHistory true api s).state.currentPredictions = [] ∧
      (loadPredictionHistory true api s).state.loadedPredictionIds = [] ∧
      (loadPredictionHistory true api s).state.totalCount = s.totalCount) ∧
    (∀ e, api s.currentPredictions.length 6 = .error e →
      (loadMorePredictions api s).result = .ok () ∧
      (loadMorePredictions api s).state.currentPredictions = s.currentPredictions ∧
      (loadMorePredictions api s).state.loadedPredictionIds = s.loadedPredictionIds ∧
      (loadMorePredictions api s).state.totalCount = s.totalCount ∧
      (loadMorePredictions api s).state.hasMorePredictions = s.hasMorePredictions) := by
  constructor
  · intro e hidle hreset
    rw [loadPredictionHistory_reset_of_idle api s hidle, hreset]
    simp [loadPredictionHistory_resume, loadPredictionHistory_try,
      updateSimpleLoadMoreButton, updatePredictionCount, GridItem.isLoadMore]
  · intro e hmore
    refine ⟨(loadMorePredictions_frame api s).2.2, ?_⟩
    by_cases h : s.currentPredictions.length < s.totalCount
    · rw [loadMorePredictions_of_lt api s h, hmore, loadMorePredictions_resume_error]
      exact ⟨rfl, rfl, rfl, rfl⟩
    · rw [loadMorePredictions_of_ge api s (Nat.le_of_not_lt h)]
      exact ⟨rfl, rfl, rfl, rfl⟩

/-- The amended C8 at the state after the first page: a reset against an API that
rejects only the first page, and a load-more against an API that rejects only the
request for `skip = 6`. -/
theorem api_failure_is_caught_witness :
    afterFirstPage.isLoading = false ∧
    (loadPredictionHistory true rejectingFirstPage afterFirstPage).state.historyGrid
      = [GridItem.errorMessage "boom"] ∧
    (loadPredictionHistory true rejectingFirstPage afterFirstPage).result = .ok () ∧
    (loadMorePredictions rejectingSecondPage afterFirstPage).requests
      = [{ skip := 6, limit := 6 }] ∧
    (loadMorePredictions rejectingSecondPage afterFirstPage).result = .ok () ∧
    (loadMorePredictions rejectingSecondPage afterFirstPage).state.currentPredictions
      = afterFirstPage.currentPredictions :=
  ⟨by decide,
   ((api_failure_is_caught afterFirstPage rejectingFirstPage).1 "boom" (by decide) rfl).2.1,
   ((api_failure_is_caught afterFirstPage rejectingFirstPage).1 "boom" (by decide) rfl).1,
   by decide,
   ((api_failure_is_caught afterFirstPage rejectingSecondPage).2 "busy" rfl).1,
   ((api_failure_is_caught afterFirstPage rejectingSecondPage).2 "busy" rfl).2.1⟩

/-- C9 (counterexample): in the state reached when the server has answered the
first page with `has_more = false`, no load is in progress and
`hasMorePredictions` is `false`; after a `loadPredictionHistory(true)` whose fetch
is rejected, `hasMorePredictions` is `true`. -/
theorem reset_failure_counterexample :
    twoOfTwo.isLoading = false ∧
    twoOfTwo.hasMorePredictions = false ∧
    (loadPredictionHistory true (Api.rejecting "boom") twoOfTwo).requests
      = [{ skip := 0, limit := 6 }] ∧
    (loadPredictionHistory true (Api.rejecting "boom") twoOfTwo).state.hasMorePredictions
      = true := by
  decide

/-- C9 (amended): for every pager state with no load in progress, if the fetch of
`loadPredictionHistory(true)` is rejected (or answered with `success = false`),
then afterwards `currentPredictions` and `loadedPredictionIds` are empty,
`totalCount` has the value it had before the call, and `hasMorePredictions` is
`true`, the value the reset gives it before the fetch. -/
theorem reset_failure (s : State) (api : Api)
    (hidle : s.isLoading = false)
    (hfail : ∀ response, api 0 6 = .ok response → response.success = false) :
    (loadPredictionHistory true api s).state.currentPredictions = [] ∧
    (loadPredictionHistory true api s).state.loadedPredictionIds = [] ∧
    (loadPredictionHistory true api s).state.totalCount = s.totalCount ∧
    (loadPredictionHistory true api s).state.hasMorePredictions = true := by
  rw [loadPredictionHistory_reset_of_idle api s hidle]
  obtain ⟨m, _, e⟩ := loadPredictionHistory_resume_failed true (api 0 6)
    { s with isLoading := true, currentPage := 0, currentPredictions := [],
             loadedPredictionIds := [], hasMorePredictions := true, historyGrid := [] } hfail
  simp only [e]
  exact ⟨rfl, rfl, rfl, rfl⟩

/-- The amended C9 at a state with two records, `totalCount = 2` and
`hasMorePredictions = false`. -/
theorem reset_failure_witness :
    twoOfTwo.totalCount = 2 ∧
    (loadPredictionHistory true (Api.rejecting "boom") twoOfTwo).state.currentPredictions
      = [] ∧
    (loadPredictionHistory true (Api.rejecting "boom") twoOfTwo).state.loadedPredictionIds
      = [] ∧
    (loadPredictionHistory true (Api.rejecting "boom") twoOfTwo).state.totalCount
      = twoOfTwo.totalCount ∧
    (loadPredictionHistory true (Api.rejecting "boom") twoOfTwo).state.hasMorePredictions
      = true :=
  ⟨by decide,
   reset_failure twoOfTwo (Api.rejecting "boom") (by decide)
     (fun _ h => by simp [Api.rejecting] at h)⟩

/-- C10 (postcondition of a reset): for every pager state with no load in progress
and every body with `success = true` that answers the fetch of
`loadPredictionHistory(true)`, afterwards `currentPredictions` is the returned
records in the order received, keeping the first record of each `_id` (all of
them when their ids are pairwise distinct), `totalCount` is the `total_count` and
`hasMorePredictions` the `has_more` of the body, whatever the state was before;
and a second reset against the same API leaves the same `currentPredictions`. -/
theorem reset_postcondition (s : State) (api : Api) (response : Response)
    (hidle : s.isLoading = false)
    (hres : api 0 6 = .ok response)
    (hsucc : response.success = true) :
    (loadPredictionHistory true api s).state.currentPredictions =
      unseenFirstOccurrences [] (response.data.getD []) ∧
    (((response.data.getD []).map Prediction._id).Nodup →
      (loadPredictionHistory true api s).state.currentPredictions = response.data.getD []) ∧
    (loadPredictionHistory true api s).state.totalCount = response.total_count ∧
    (loadPredictionHistory true api s).state.hasMorePredictions = response.has_more ∧
    (loadPredictionHistory true api (loadPredictionHistory true api s).state).state.currentPredictions
      = (loadPredictionHistory true api s).state.currentPredictions := by
  have key : ∀ s0 : State, s0.isLoading = false →
      (loadPredictionHistory true api s0).state.currentPredictions =
        (filterUnique [] (response.data.getD [])).1 ∧
      (loadPredictionHistory true api s0).state.totalCount = response.total_count ∧
      (loadPredictionHistory true api s0).state.hasMorePredictions = response.has_more ∧
      (loadPredictionHistory true api s0).state.isLoading = false := by
    intro s0 h0
    rw [loadPredictionHistory_reset_of_idle api s0 h0, hres]
    have h := loadPredictionHistory_resume_ok true response
      { s0 with isLoading := true, currentPage := 0, currentPredictions := [],
                loadedPredictionIds := [], hasMorePredictions := true, historyGrid := [] }
      hsucc
    exact ⟨by simpa using h.1, h.2.2.1, h.2.2.2.1, h.2.2.2.2⟩
  obtain ⟨h1, h2, h3, h4⟩ := key s hidle
  refine ⟨?_, ?_, h2, h3, ?_⟩
  · rw [h1, filterUnique_fst]
  · intro hn
    rw [h1]
    exact filterUnique_fst_of_nodup [] _ (by simpa using hn)
  · rw [(key _ h4).1, h1]

/-- The postcondition of a reset at the state after the first page, with a page
that repeats an id: the old records are gone and `g` is kept once. -/
theorem reset_postcondition_witness :
    afterFirstPage.isLoading = false ∧
    (loadPredictionHistory true (Api.always overlappingPage) afterFirstPage).state.currentPredictions
      = unseenFirstOccurrences [] (overlappingPage.data.getD []) ∧
    unseenFirstOccurrences [] (overlappingPage.data.getD [])
      = [samplePrediction "e", samplePrediction "f", samplePrediction "g",
         samplePrediction "h"] ∧
    (loadPredictionHistory true (Api.always overlappingPage) afterFirstPage).state.totalCount
      = 14 :=
  ⟨by decide,
   (reset_postcondition afterFirstPage (Api.always overlappingPage) overlappingPage
      (by decide) rfl rfl).1,
   by decide, by decide⟩

/-! ## Claims C11 to C16 -/

theorem IdSet.mem_add (ids : IdSet) (a x : String) : x ∈ ids.add a ↔ x ∈ ids ∨ x = a := by
  unfold IdSet.add
  split
  · next h =>
    have ha : a ∈ ids := (IdSet.has_iff ids a).1 h
    constructor
    · exact Or.inl
    · rintro (h1 | rfl)
      · exact h1
      · exact ha
  · simp

theorem IdSet.nodup_add (ids : IdSet) (a : String) (hn : ids.Nodup) : (ids.add a).Nodup := by
  by_cases ha : a ∈ ids
  · have : ids.add a = ids := by simp [IdSet.add, IdSet.has, ha]
    rw [this]
    exact hn
  · rw [IdSet.add_of_not_mem ids a ha]
    exact List.Nodup.append hn (List.nodup_singleton _) (by simpa using ha)

/-- Rebuilding a set from any list of records gives a set with exactly their ids. -/
theorem foldl_add_mem (l : List Prediction) (acc : IdSet) (x : String) :
    x ∈ l.foldl (fun (ids : IdSet) (prediction : Prediction) =>
        IdSet.add ids prediction._id) acc ↔
      x ∈ acc ∨ ∃ p ∈ l, p._id = x := by
  induction l generalizing acc with
  | nil => simp
  | cons p rest ih =>
    simp only [List.foldl_cons, ih, IdSet.mem_add, List.mem_cons, exists_eq_or_imp]
    constructor
    · rintro ((h | h) | h)
      · exact Or.inl h
      · exact Or.inr (Or.inl h.symm)
      · exact Or.inr (Or.inr h)
    · rintro (h | h | h)
      · exact Or.inl (Or.inl h)
      · exact Or.inl (Or.inr h.symm)
      · exact Or.inr h

theorem foldl_add_nodup (l : List Prediction) (acc : IdSet) (hn : acc.Nodup) :
    (l.foldl (fun (ids : IdSet) (prediction : Prediction) =>
        IdSet.add ids prediction._id) acc).Nodup := by
  induction l generalizing acc with
  | nil => exact hn
  | cons p rest ih => exact ih _ (IdSet.nodup_add acc _ hn)

/-- C11 (collapse): for every session, `showLessPredictions` sends no request and
leaves the fetches in flight alone; it leaves `currentPredictions` equal to its own
first six entries in their order (unchanged when there were six or fewer),
`loadedPredictionIds` a set with exactly the ids of that prefix,
`hasMorePredictions` equal to `totalCount > 6`, and `totalCount` unchanged. -/
theorem showLess_collapse (y : Sys) :
    (y.step Event.callShowLessPredictions).sent = y.sent ∧
    (y.step Event.callShowLessPredictions).inFlight = y.inFlight ∧
    (y.step Event.callShowLessPredictions).app = showLessPredictions y.app ∧
    (showLessPredictions y.app).currentPredictions = y.app.currentPredictions.take 6 ∧
    (y.app.currentPredictions.length ≤ 6 →
      (showLessPredictions y.app).currentPredictions = y.app.currentPredictions) ∧
    (∀ x, x ∈ (showLessPredictions y.app).loadedPredictionIds ↔
      ∃ p ∈ y.app.currentPredictions.take 6, p._id = x) ∧
    (showLessPredictions y.app).loadedPredictionIds.Nodup ∧
    (showLessPredictions y.app).hasMorePredictions = decide (y.app.totalCount > 6) ∧
    (showLessPredictions y.app).totalCount = y.app.totalCount := by
  refine ⟨rfl, rfl, rfl, rfl, ?_, ?_, ?_, rfl, rfl⟩
  · intro h
    show y.app.currentPredictions.take 6 = y.app.currentPredictions
    exact List.take_of_length_le h
  · intro x
    have h := foldl_add_mem (y.app.currentPredictions.take 6) [] x
    simpa [showLessPredictions] using h
  · have h := foldl_add_nodup (y.app.currentPredictions.take 6) [] List.nodup_nil
    simpa [showLessPredictions] using h

/-- The collapse from fourteen loaded unique records with `totalCount = 20`: the
first six records remain, with their ids, and `hasMorePredictions` is `true`; and
from the six records of a first page nothing changes in the list. -/
theorem showLess_collapse_witness :
    fourteenOfTwenty.currentPredictions.length = 14 ∧
    fourteenOfTwenty.totalCount = 20 ∧
    (showLessPredictions fourteenOfTwenty).currentPredictions
      = ["a", "b", "c", "d", "e", "f"].map samplePrediction ∧
    (showLessPredictions fourteenOfTwenty).loadedPredictionIds
      = ["a", "b", "c", "d", "e", "f"] ∧
    (showLessPredictions fourteenOfTwenty).hasMorePredictions = true ∧
    (showLessPredictions afterFirstPage).currentPredictions
      = afterFirstPage.currentPredictions :=
  ⟨by decide, by decide, by decide, by decide, by decide,
   (showLess_collapse { app := afterFirstPage, inFlight := [], sent := [] }).2.2.2.2.1
     (by decide)⟩

/-! ### The load-more button -/

theorem countP_eraseP_isLoadMore (grid : List GridItem)
    (h : grid.countP GridItem.isLoadMore ≤ 1) :
    (grid.eraseP GridItem.isLoadMore).countP GridItem.isLoadMore = 0 := by
  induction grid with
  | nil => rfl
  | cons item rest ih =>
    by_cases hi : item.isLoadMore = true
    · simp only [List.eraseP_cons_of_pos hi]
      simp only [List.countP_cons_of_pos _ _ hi] at h
      omega
    · simp only [List.eraseP_cons_of_neg hi, List.countP_cons_of_neg _ _ hi]
      simp only [List.countP_cons_of_neg _ _ hi] at h
      exact ih h

theorem countP_disableLoadMoreBtn (grid : List GridItem) :
    (disableLoadMoreBtn grid).countP GridItem.isLoadMore
      = grid.countP GridItem.isLoadMore := by
  induction grid with
  | nil => rfl
  | cons item rest ih =>
    cases item with
    | loadMoreContainer btn => simp [disableLoadMoreBtn, GridItem.isLoadMore]
    | historyCard p => simp [disableLoadMoreBtn, GridItem.isLoadMore, ih]
    | emptyNotice => simp [disableLoadMoreBtn, GridItem.isLoadMore, ih]
    | errorMessage m => simp [disableLoadMoreBtn, GridItem.isLoadMore, ih]

theorem countP_historyCards (predictions : List Prediction) :
    (predictions.map GridItem.historyCard).countP GridItem.isLoadMore = 0 := by
  induction predictions with
  | nil => rfl
  | cons p rest ih => simp [GridItem.isLoadMore, ih]

theorem AtMostOneLoadMore.of_grid_eq {s t : State} (h : AtMostOneLoadMore s)
    (e : t.historyGrid = s.historyGrid) : AtMostOneLoadMore t := by
  unfold AtMostOneLoadMore at *
  rw [e]
  exact h

theorem atMostOne_of_grid_free {t : State}
    (h : t.historyGrid.countP GridItem.isLoadMore = 0) : AtMostOneLoadMore t := by
  unfold AtMostOneLoadMore
  omega

theorem atMostOne_updateSimpleLoadMoreButton (s : State) (h : AtMostOneLoadMore s) :
    AtMostOneLoadMore (updateSimpleLoadMoreButton s) := by
  have h0 := countP_eraseP_isLoadMore s.historyGrid h
  unfold AtMostOneLoadMore updateSimpleLoadMoreButton updatePredictionCount
  simp only
  split
  · simp [List.countP_append, h0, GridItem.isLoadMore]
  · omega

theorem atMostOne_renderPredictions (predictions : List Prediction) (reset : Bool)
    (s : State) (h : AtMostOneLoadMore s) :
    AtMostOneLoadMore (renderPredictions predictions reset s) := by
  unfold AtMostOneLoadMore at *
  cases reset
  · show (s.historyGrid ++ predictions.map GridItem.historyCard).countP GridItem.isLoadMore ≤ 1
    rw [List.countP_append, countP_historyCards]
    exact h
  · show (predictions.map GridItem.historyCard).countP GridItem.isLoadMore ≤ 1
    rw [countP_historyCards]
    exact Nat.zero_le 1

theorem atMostOne_loadPredictionHistory_begin (reset : Bool) (s : State)
    (h : AtMostOneLoadMore s) : AtMostOneLoadMore (loadPredictionHistory_begin reset s).1 := by
  unfold loadPredictionHistory_begin
  split
  · exact h
  · cases reset
    · exact h
    · exact atMostOne_of_grid_free rfl

theorem atMostOne_loadPredictionHistory_try (reset : Bool) (res : ApiResult) (s s' : State)
    (h : AtMostOneLoadMore s) (e : loadPredictionHistory_try reset res s = .ok s') :
    AtMostOneLoadMore s' := by
  unfold loadPredictionHistory_try at e
  cases res with
  | error m => simp at e
  | ok response =>
    simp only at e
    split at e
    · simp at e
    · split at e
      · cases e
        exact atMostOne_of_grid_free rfl
      · cases e
        apply atMostOne_updateSimpleLoadMoreButton
        cases reset
        · simp only [Bool.false_eq_true, if_false]
          split
          · exact (atMostOne_renderPredictions _ false _ (h.of_grid_eq rfl)).of_grid_eq rfl
          · exact atMostOne_renderPredictions _ false _ (h.of_grid_eq rfl)
        · exact (atMostOne_renderPredictions _ true _ (h.of_grid_eq rfl)).of_grid_eq rfl

theorem atMostOne_loadPredictionHistory_resume (reset : Bool) (res : ApiResult) (s : State)
    (h : AtMostOneLoadMore s) :
    AtMostOneLoadMore (loadPredictionHistory_resume reset res s).1 := by
  simp only [loadPredictionHistory_resume]
  apply atMostOne_updateSimpleLoadMoreButton
  cases e : loadPredictionHistory_try reset res s with
  | ok s' => exact (atMostOne_loadPredictionHistory_try reset res s s' h e).of_grid_eq rfl
  | error m => exact atMostOne_of_grid_free rfl

theorem atMostOne_loadMorePredictions_begin (s : State) (h : AtMostOneLoadMore s) :
    AtMostOneLoadMore (loadMorePredictions_begin s).1 := by
  unfold loadMorePredictions_begin
  split
  · exact h
  · unfold AtMostOneLoadMore at *
    simpa [countP_disableLoadMoreBtn] using h

theorem atMostOne_loadMorePredictions_resume (res : ApiResult) (s : State)
    (h : AtMostOneLoadMore s) : AtMostOneLoadMore (loadMorePredictions_resume res s).1 := by
  unfold loadMorePredictions_resume
  cases res with
  | error e => exact h.of_grid_eq rfl
  | ok response =>
    simp only
    split
    · exact (atMostOne_renderPredictions _ false _ (h.of_grid_eq rfl)).of_grid_eq rfl
    · exact h.of_grid_eq rfl

theorem atMostOne_showLessPredictions (s : State) :
    AtMostOneLoadMore (showLessPredictions s) := by
  unfold showLessPredictions
  apply atMostOne_updateSimpleLoadMoreButton
  exact atMostOne_of_grid_free (countP_historyCards _)

theorem atMostOne_loadMoreTimeout (s : State) (h : AtMostOneLoadMore s) :
    AtMostOneLoadMore (loadMoreTimeout s) := by
  unfold loadMoreTimeout
  split
  · exact h
  · exact atMostOne_updateSimpleLoadMoreButton _ (h.of_grid_eq rfl)

theorem atMostOne_sys_step (y : Sys) (e : Event) (h : AtMostOneLoadMore y.app) :
    AtMostOneLoadMore (y.step e).app := by
  cases e with
  | callLoadPredictionHistory reset =>
    have hb := atMostOne_loadPredictionHistory_begin reset y.app h
    simp only [Sys.step]
    split
    next s1 e1 => rw [e1] at hb; exact hb
    next s1 rq e1 => rw [e1] at hb; exact hb
  | callLoadMorePredictions =>
    have hb := atMostOne_loadMorePredictions_begin y.app h
    simp only [Sys.step]
    split
    next s1 e1 => rw [e1] at hb; exact hb
    next s1 rq e1 => rw [e1] at hb; exact hb
  | callShowLessPredictions => exact atMostOne_showLessPredictions y.app
  | settle i res =>
    simp only [Sys.step]
    split
    · exact h
    · exact atMostOne_loadPredictionHistory_resume _ res y.app h
    · exact atMostOne_loadMorePredictions_resume res y.app h
  | timeout => exact atMostOne_loadMoreTimeout y.app h

/-- In every session the grid holds at most one load-more container, in whatever
order calls start, fetches settle and timers fire. -/
theorem atMostOne_sys_run (events : List Event) (y : Sys) (h : AtMostOneLoadMore y.app) :
    AtMostOneLoadMore (Sys.run events y).app := by
  induction events generalizing y with
  | nil => exact h
  | cons e rest ih => exact ih (y.step e) (atMostOne_sys_step y e h)

/-- What `updateSimpleLoadMoreButton` leaves in a grid with at most one load-more
container. -/
theorem updateSimpleLoadMoreButton_button (s : State) (h : AtMostOneLoadMore s) :
    ((updateSimpleLoadMoreButton s).historyGrid.any GridItem.isLoadMore = true ↔
      0 < s.currentPredictions.length ∧ s.currentPredictions.length < s.totalCount) ∧
    (∀ btn, GridItem.loadMoreContainer btn ∈ (updateSimpleLoadMoreButton s).historyGrid →
      btn = LoadMoreBtn.ready s.currentPredictions.length s.totalCount) := by
  have h0 := countP_eraseP_isLoadMore s.historyGrid h
  have hfree : ∀ item ∈ s.historyGrid.eraseP GridItem.isLoadMore,
      item.isLoadMore = false := by
    intro item hi
    by_contra hc
    have hpos : 0 < (s.historyGrid.eraseP GridItem.isLoadMore).countP GridItem.isLoadMore :=
      List.countP_pos_iff.2 ⟨item, hi, by simpa using hc⟩
    omega
  have hgrid : (updateSimpleLoadMoreButton s).historyGrid =
      if s.currentPredictions.length > 0 ∧ s.currentPredictions.length < s.totalCount then
        s.historyGrid.eraseP GridItem.isLoadMore ++
          [GridItem.loadMoreContainer
            (LoadMoreBtn.ready s.currentPredictions.length s.totalCount)]
      else s.historyGrid.eraseP GridItem.isLoadMore := rfl
  rw [hgrid]
  by_cases hc : s.currentPredictions.length > 0 ∧ s.currentPredictions.length < s.totalCount
  · rw [if_pos hc]
    refine ⟨?_, ?_⟩
    · constructor
      · intro _
        exact hc
      · intro _
        simp [GridItem.isLoadMore]
    · intro btn hb
      rcases List.mem_append.1 hb with hb | hb
      · have := hfree _ hb
        simp [GridItem.isLoadMore] at this
      · simpa using hb
  · rw [if_neg hc]
    refine ⟨?_, ?_⟩
    · constructor
      · intro ha
        obtain ⟨item, hi, hl⟩ := List.any_eq_true.1 ha
        rw [hfree item hi] at hl
        exact absurd hl (by simp)
      · intro hx
        exact absurd hx hc
    · intro btn hb
      have := hfree _ hb
      simp [GridItem.isLoadMore] at this

/-- C12 (derived button state): in every state the page can be in, that is, after
any sequence of calls, settled fetches and timer firings from the initial state,
`updateSimpleLoadMoreButton` leaves a load-more button in the history grid if and
only if `0 < currentPredictions.length < totalCount`, and a button that is present
is enabled and shows the pair `(currentPredictions.length, totalCount)`. -/
theorem loadMore_button_state (events : List Event) :
    ((updateSimpleLoadMoreButton (Sys.run events Sys.initial).app).historyGrid.any
        GridItem.isLoadMore = true ↔
      0 < (Sys.run events Sys.initial).app.currentPredictions.length ∧
      (Sys.run events Sys.initial).app.currentPredictions.length <
        (Sys.run events Sys.initial).app.totalCount) ∧
    (∀ btn, GridItem.loadMoreContainer btn ∈
        (updateSimpleLoadMoreButton (Sys.run events Sys.initial).app).historyGrid →
      btn = LoadMoreBtn.ready (Sys.run events Sys.initial).app.currentPredictions.length
        (Sys.run events Sys.initial).app.totalCount) :=
  updateSimpleLoadMoreButton_button _
    (atMostOne_sys_run events Sys.initial (atMostOne_of_grid_free rfl))

/-! ### A stable server: no gap and no overlap -/

theorem take_length_take {α : Type} (k : Nat) (l : List α) :
    l.take (l.take k).length = l.take k := by
  rw [List.length_take]
  by_cases h : k ≤ l.length
  · rw [Nat.min_eq_left h]
  · have h2 : l.length ≤ k := Nat.le_of_not_le h
    rw [Nat.min_eq_right h2, List.take_of_length_le h2, List.take_of_length_le (Nat.le_refl _)]

/-- The page that a stable server returns for `skip = n` to a pager that holds the
first `n` records is kept whole by the filter, and the list grows to a longer
beginning of the records. -/
theorem stable_page_appended (records : List Prediction)
    (hL : (records.map Prediction._id).Nodup) (t t' : State) (hc : Consistent t)
    (hp : t.currentPredictions = records.take t.currentPredictions.length)
    (h1 : t'.currentPredictions = t.currentPredictions ++
      (filterUnique t.loadedPredictionIds
        ((records.drop t.currentPredictions.length).take 6)).1)
    (ht : t'.totalCount = records.length) : PrefixOf records t' := by
  have hids : t.loadedPredictionIds =
      (records.take t.currentPredictions.length).map Prediction._id := by
    rw [hc.1]
    exact congrArg _ hp
  have hn : (t.loadedPredictionIds ++
      ((records.drop t.currentPredictions.length).take 6).map Prediction._id).Nodup := by
    rw [hids, ← List.map_append, ← List.take_add]
    exact List.Nodup.sublist (List.Sublist.map _ (List.take_sublist _ _)) hL
  have hcur : t'.currentPredictions = records.take (t.currentPredictions.length + 6) := by
    rw [h1, filterUnique_fst_of_nodup _ _ hn, List.take_add]
    exact congrArg (· ++ _) hp
  refine ⟨?_, ?_, Or.inl ht⟩
  · rw [hcur]
    exact (take_length_take _ _).symm
  · rw [hcur, ht, List.length_take]
    exact Nat.min_le_right _ _

theorem loadPredictionHistory_of_loading (reset : Bool) (api : Api) (s : State)
    (h : s.isLoading = true) :
    loadPredictionHistory reset api s = { state := s, requests := [], result := .ok () } := by
  simp [loadPredictionHistory, loadPredictionHistory_begin, h]

theorem loadPredictionHistory_append_of_idle (api : Api) (s : State)
    (h : s.isLoading = false) :
    loadPredictionHistory false api s =
      { state := (loadPredictionHistory_resume false (api s.currentPredictions.length 6)
          { s with isLoading := true }).1
        requests := [{ skip := s.currentPredictions.length, limit := 6 }]
        result := (loadPredictionHistory_resume false (api s.currentPredictions.length 6)
          { s with isLoading := true }).2 } := by
  simp [loadPredictionHistory, loadPredictionHistory_begin, h]

theorem prefixOf_loadPredictionHistory (records : List Prediction)
    (hL : (records.map Prediction._id).Nodup) (reset : Bool) (s : State)
    (hc : Consistent s) (hp : PrefixOf records s) :
    PrefixOf records (loadPredictionHistory reset (stableServer records) s).state := by
  by_cases hl : s.isLoading = true
  · rw [loadPredictionHistory_of_loading reset _ s hl]
    exact hp
  · have hidle : s.isLoading = false := by simpa using hl
    cases reset
    · rw [loadPredictionHistory_append_of_idle _ s hidle]
      have h := loadPredictionHistory_resume_ok false
        { success := true
          data := some ((records.drop s.currentPredictions.length).take 6)
          total_count := records.length
          has_more := decide (s.currentPredictions.length + 6 < records.length)
          error := none }
        { s with isLoading := true } rfl
      exact stable_page_appended records hL { s with isLoading := true } _
        (hc.congr rfl rfl) hp.1 h.1 h.2.2.1
    · rw [loadPredictionHistory_reset_of_idle _ s hidle]
      have h := loadPredictionHistory_resume_ok true
        { success := true
          data := some ((records.drop 0).take 6)
          total_count := records.length
          has_more := decide (0 + 6 < records.length)
          error := none }
        { s with isLoading := true, currentPage := 0, currentPredictions := [],
                 loadedPredictionIds := [], hasMorePredictions := true, historyGrid := [] } rfl
      exact stable_page_appended records hL
        { s with isLoading := true, currentPage := 0, currentPredictions := [],
                 loadedPredictionIds := [], hasMorePredictions := true, historyGrid := [] } _
        (by simp [Consistent]) (by simp) h.1 h.2.2.1

theorem prefixOf_loadMorePredictions (records : List Prediction)
    (hL : (records.map Prediction._id).Nodup) (s : State)
    (hc : Consistent s) (hp : PrefixOf records s) :
    PrefixOf records (loadMorePredictions (stableServer records) s).state := by
  by_cases hlt : s.currentPredictions.length < s.totalCount
  · have htot : s.totalCount = records.length := by
      rcases hp.2.2 with h | h
      · exact h
      · omega
    rw [loadMorePredictions_of_lt _ s hlt]
    have h := loadMorePredictions_resume_ok
      { success := true
        data := some ((records.drop s.currentPredictions.length).take 6)
        total_count := records.length
        has_more := decide (s.currentPredictions.length + 6 < records.length)
        error := none }
      { s with historyGrid := disableLoadMoreBtn s.historyGrid } rfl
    have hf := loadMorePredictions_resume_frame
      (stableServer records s.currentPredictions.length 6)
      { s with historyGrid := disableLoadMoreBtn s.historyGrid }
    exact stable_page_appended records hL
      { s with historyGrid := disableLoadMoreBtn s.historyGrid } _
      (hc.congr rfl rfl) hp.1 h.1 (hf.1.trans htot)
  · rw [loadMorePredictions_of_ge _ s (Nat.le_of_not_lt hlt)]
    exact hp

theorem prefixOf_showLessPredictions (records : List Prediction) (s : State)
    (hp : PrefixOf records s) : PrefixOf records (showLessPredictions s) := by
  obtain ⟨h1, h2, h3⟩ := hp
  have hcur : (showLessPredictions s).currentPredictions
      = records.take (min 6 s.currentPredictions.length) := by
    show s.currentPredictions.take 6 = _
    rw [h1, List.take_take, List.length_take]
    congr 1
    omega
  have hlen : (showLessPredictions s).currentPredictions.length
      = min 6 s.currentPredictions.length := by
    show (s.currentPredictions.take 6).length = _
    rw [List.length_take]
  refine ⟨?_, ?_, h3⟩
  · rw [hlen]
    exact hcur
  · rw [hlen]
    show _ ≤ s.totalCount
    omega

theorem prefixOf_loadMoreTimeout (records : List Prediction) (s : State)
    (hp : PrefixOf records s) : PrefixOf records (loadMoreTimeout s) := by
  unfold loadMoreTimeout
  split
  · exact hp
  · exact hp

theorem prefixOf_runCalls (records : List Prediction)
    (hL : (records.map Prediction._id).Nodup) (ops : List Op) (s : State)
    (hc : Consistent s) (hp : PrefixOf records s) :
    PrefixOf records (runCalls (ops.map (Op.against (stableServer records))) s) := by
  induction ops generalizing s with
  | nil => exact hp
  | cons op rest ih =>
    refine ih _ (consistent_run _ s hc) ?_
    cases op with
    | loadPredictionHistory reset => exact prefixOf_loadPredictionHistory records hL reset s hc hp
    | loadMorePredictions => exact prefixOf_loadMorePredictions records hL s hc hp
    | showLessPredictions => exact prefixOf_showLessPredictions records s hp
    | loadMoreTimeout => exact prefixOf_loadMoreTimeout records s hp

/-- C13 (no gap, no overlap under a stable server): if the server holds a fixed list
of records with pairwise distinct ids and answers every request `(skip, limit)`
with `records[skip, skip + limit)`, `total_count = |records|` and
`has_more = (skip + limit < |records|)`, then after every sequence of awaited
`loadPredictionHistory` (with either argument), `loadMorePredictions` and
`showLessPredictions` from the initial state, `currentPredictions` is exactly the
beginning of `records` of its own length, and
`currentPredictions.length <= totalCount`. -/
theorem no_gap_no_overlap (records : List Prediction)
    (hL : (records.map Prediction._id).Nodup) (ops : List Op) :
    (runCalls (ops.map (Op.against (stableServer records))) State.initial).currentPredictions
      = records.take
        (runCalls (ops.map (Op.against (stableServer records)))
          State.initial).currentPredictions.length ∧
    (runCalls (ops.map (Op.against (stableServer records))) State.initial).currentPredictions.length
      ≤ (runCalls (ops.map (Op.against (stableServer records))) State.initial).totalCount := by
  have h := prefixOf_runCalls records hL ops State.initial consistent_initial
    ⟨rfl, Nat.le_refl _, Or.inr rfl⟩
  exact ⟨h.1, h.2.1⟩

/-- A stable server with fourteen records: after a reset, two load-more calls, a
collapse and one more load-more call the first twelve records are loaded. -/
theorem no_gap_no_overlap_witness :
    (fourteenRecords.map Prediction._id).Nodup ∧
    (runCalls ([Op.loadPredictionHistory true, Op.loadMorePredictions, Op.loadMorePredictions,
        Op.showLessPredictions, Op.loadMorePredictions].map
          (Op.against (stableServer fourteenRecords))) State.initial).currentPredictions
      = fourteenRecords.take
        (runCalls ([Op.loadPredictionHistory true, Op.loadMorePredictions,
          Op.loadMorePredictions, Op.showLessPredictions, Op.loadMorePredictions].map
            (Op.against (stableServer fourteenRecords))) State.initial).currentPredictions.length ∧
    (runCalls ([Op.loadPredictionHistory true, Op.loadMorePredictions, Op.loadMorePredictions,
        Op.showLessPredictions, Op.loadMorePredictions].map
          (Op.against (stableServer fourteenRecords))) State.initial).currentPredictions.length
      = 12 :=
  ⟨by decide,
   (no_gap_no_overlap fourteenRecords (by decide)
     [Op.loadPredictionHistory true, Op.loadMorePredictions, Op.loadMorePredictions,
      Op.showLessPredictions, Op.loadMorePredictions]).1,
   by decide⟩

/-! ### The end-to-end scenario -/

/-- On a page whose ids are pairwise distinct the filter of the code keeps exactly
the records whose id is not in the set. -/
theorem filterUnique_fst_eq_filter (ids : IdSet) (data : List Prediction)
    (hn : (data.map Prediction._id).Nodup) :
    (filterUnique ids data).1 = data.filter (fun p => decide (p._id ∉ ids)) := by
  induction data generalizing ids with
  | nil => rfl
  | cons p rest ih =>
    have hrest : (rest.map Prediction._id).Nodup := (List.nodup_cons.1 hn).2
    have hp : p._id ∉ rest.map Prediction._id := (List.nodup_cons.1 hn).1
    by_cases h : p._id ∈ ids
    · simp only [filterUnique, IdSet.has, h, decide_True, Bool.not_true, Bool.false_eq_true,
        if_false, List.filter_cons, not_true_eq_false, decide_False]
      exact ih ids hrest
    · simp only [filterUnique, IdSet.has, h, decide_False, Bool.not_false, if_true,
        List.filter_cons, not_false_eq_true, decide_True, IdSet.add_of_not_mem ids _ h]
      rw [ih _ hrest]
      congr 1
      apply List.filter_congr
      intro q hq
      have hne : q._id ≠ p._id := by
        intro e
        exact hp (e ▸ List.mem_map_of_mem _ hq)
      simp [hne]

/-- An awaited `loadPredictionHistory(true)` with no load in progress whose fetch is
answered with `success = true`. -/
theorem loadPredictionHistory_reset_ok (api : Api) (s : State) (response : Response)
    (hidle : s.isLoading = false) (hres : api 0 6 = .ok response)
    (hsucc : response.success = true) :
    (loadPredictionHistory true api s).requests = [{ skip := 0, limit := 6 }] ∧
    (loadPredictionHistory true api s).state.currentPredictions =
      (filterUnique [] (response.data.getD [])).1 ∧
    (loadPredictionHistory true api s).state.totalCount = response.total_count := by
  rw [loadPredictionHistory_reset_of_idle api s hidle, hres]
  have h := loadPredictionHistory_resume_ok true response
    { s with isLoading := true, currentPage := 0, currentPredictions := [],
             loadedPredictionIds := [], hasMorePredictions := true, historyGrid := [] }
    hsucc
  exact ⟨rfl, by simpa using h.1, h.2.2.1⟩

/-- An awaited `loadMorePredictions()` that gets past the guard and whose fetch is
answered with `success = true`. -/
theorem loadMorePredictions_ok (api : Api) (s : State) (response : Response)
    (hlt : s.currentPredictions.length < s.totalCount)
    (hres : api s.currentPredictions.length 6 = .ok response)
    (hsucc : response.success = true) :
    (loadMorePredictions api s).requests
      = [{ skip := s.currentPredictions.length, limit := 6 }] ∧
    (loadMorePredictions api s).state.currentPredictions =
      s.currentPredictions ++
        (filterUnique s.loadedPredictionIds (response.data.getD [])).1 ∧
    (loadMorePredictions api s).state.totalCount = s.totalCount := by
  have hf := (loadMorePredictions_frame api s).1
  refine ⟨?_, ?_, hf⟩
  · rw [loadMorePredictions_of_lt api s hlt]
  · rw [loadMorePredictions_of_lt api s hlt, hres]
    exact (loadMorePredictions_resume_ok response
      { s with historyGrid := disableLoadMoreBtn s.historyGrid } hsucc).1

/-- C14 (amended end-to-end scenario): the first call asks for `(0, 6)` and gets six
records, the next for `(6, 6)` and gets six records of which two have ids of the
first page, the next gets two new records; every page reports a total of 14.  Then
after the reset there are 6 records, after the first `loadMorePredictions` 10, the
second `loadMorePredictions` asks for `skip = 10` and after it there are exactly 12
records with pairwise distinct ids and `totalCount` is 14; a third
`loadMorePredictions` does send a request, for `skip = 12`. -/
theorem scenario_twelve_records (api1 api2 api3 api4 : Api) (r1 r2 r3 : Response)
    (d1 d2 d3 : List Prediction) (hp : ScenarioPages r1 r2 r3 d1 d2 d3)
    (h1 : api1 0 6 = .ok r1) (h2 : api2 6 6 = .ok r2) (h3 : api3 10 6 = .ok r3) :
    (loadPredictionHistory true api1 State.initial).requests = [{ skip := 0, limit := 6 }] ∧
    (loadPredictionHistory true api1 State.initial).state.currentPredictions.length = 6 ∧
    (loadMorePredictions api2 (loadPredictionHistory true api1 State.initial).state).requests
      = [{ skip := 6, limit := 6 }] ∧
    (loadMorePredictions api2
      (loadPredictionHistory true api1 State.initial).state).state.currentPredictions.length
      = 10 ∧
    (loadMorePredictions api3 (loadMorePredictions api2
      (loadPredictionHistory true api1 State.initial).state).state).requests
      = [{ skip := 10, limit := 6 }] ∧
    (afterResetAndTwoLoadMore api1 api2 api3).currentPredictions.length = 12 ∧
    (afterResetAndTwoLoadMore api1 api2 api3).currentPredictions.Pairwise
      (fun p q => p._id ≠ q._id) ∧
    (afterResetAndTwoLoadMore api1 api2 api3).totalCount = 14 ∧
    (loadMorePredictions api4 (afterResetAndTwoLoadMore api1 api2 api3)).requests
      = [{ skip := 12, limit := 6 }] := by
  have run3 : afterResetAndTwoLoadMore api1 api2 api3 =
      (loadMorePredictions api3 (loadMorePredictions api2
        (loadPredictionHistory true api1 State.initial).state).state).state := rfl
  rw [run3]
  -- the reset
  obtain ⟨req1, cur1, tot1⟩ :=
    loadPredictionHistory_reset_ok api1 State.initial r1 rfl h1 hp.success1
  have c1 : Consistent (loadPredictionHistory true api1 State.initial).state :=
    consistent_loadPredictionHistory true api1 _ consistent_initial
  rw [hp.data1, Option.getD_some,
    filterUnique_fst_of_nodup [] d1 (by simpa using hp.nodup1)] at cur1
  rw [hp.total1] at tot1
  refine ⟨req1, by rw [cur1, hp.length1], ?_⟩
  generalize (loadPredictionHistory true api1 State.initial).state = s1 at c1 cur1 tot1 ⊢
  have len1 : s1.currentPredictions.length = 6 := by rw [cur1, hp.length1]
  have ids1 : s1.loadedPredictionIds = d1.map Prediction._id := by rw [c1.1, cur1]
  -- the first load-more
  obtain ⟨req2, cur2, tot2⟩ :=
    loadMorePredictions_ok api2 s1 r2 (by omega) (by rw [len1]; exact h2) hp.success2
  have c2 : Consistent (loadMorePredictions api2 s1).state :=
    consistent_loadMorePredictions api2 s1 c1
  rw [hp.data2, Option.getD_some, filterUnique_fst_eq_filter _ _ hp.nodup2, ids1, cur1] at cur2
  rw [len1] at req2
  rw [tot1] at tot2
  have len2 : (loadMorePredictions api2 s1).state.currentPredictions.length = 10 := by
    rw [cur2, List.length_append, hp.length1]
    have hsplit := List.length_eq_length_filter_add
      (l := d2) (fun p => decide (p._id ∈ d1.map Prediction._id))
    rw [hp.length2, hp.overlap2] at hsplit
    have hsame : d2.filter (fun p => decide (p._id ∉ d1.map Prediction._id)) =
        d2.filter (fun p => !decide (p._id ∈ d1.map Prediction._id)) := by
      apply List.filter_congr
      intro q _
      exact decide_not
    rw [hsame]
    omega
  have sub2 : ∀ x ∈ (loadMorePredictions api2 s1).state.loadedPredictionIds,
      x ∈ d1.map Prediction._id ∨ x ∈ d2.map Prediction._id := by
    intro x hx
    rw [c2.1, cur2, List.map_append, List.mem_append] at hx
    rcases hx with hx | hx
    · exact Or.inl hx
    · right
      obtain ⟨q, hq, rfl⟩ := List.mem_map.1 hx
      exact List.mem_map_of_mem _ (List.mem_filter.1 hq).1
  refine ⟨req2, len2, ?_⟩
  clear cur2 req2 cur1 ids1 len1 tot1 c1
  generalize (loadMorePredictions api2 s1).state = s2 at c2 tot2 len2 sub2 ⊢
  -- the second load-more
  obtain ⟨req3, cur3, tot3⟩ :=
    loadMorePredictions_ok api3 s2 r3 (by omega) (by rw [len2]; exact h3) hp.success3
  have c3 : Consistent (loadMorePredictions api3 s2).state :=
    consistent_loadMorePredictions api3 s2 c2
  have hn3 : (s2.loadedPredictionIds ++ d3.map Prediction._id).Nodup := by
    refine List.Nodup.append c2.2 hp.nodup3 ?_
    intro x hx hx3
    obtain ⟨q, hq, rfl⟩ := List.mem_map.1 hx3
    rcases sub2 _ hx with h | h
    · exact (hp.new3 q hq).1 h
    · exact (hp.new3 q hq).2 h
  rw [hp.data3, Option.getD_some, filterUnique_fst_of_nodup _ _ hn3] at cur3
  rw [len2] at req3
  rw [tot2] at tot3
  have len3 : (loadMorePredictions api3 s2).state.currentPredictions.length = 12 := by
    rw [cur3, List.length_append, len2, hp.length3]
  have pw3 : (loadMorePredictions api3 s2).state.currentPredictions.Pairwise
      (fun p q => p._id ≠ q._id) := by
    have hn : ((loadMorePredictions api3 s2).state.currentPredictions.map
        Prediction._id).Nodup := c3.1 ▸ c3.2
    exact List.pairwise_map.1 hn
  refine ⟨req3, len3, pw3, tot3, ?_⟩
  -- a third load-more
  have e4 := loadMorePredictions_of_lt api4 (loadMorePredictions api3 s2).state (by omega)
  rw [e4, len3]

/-- The amended scenario with the pages `a`-`f`, `e`-`j` and `k`, `l`, the third one
served for `skip = 10`: twelve records, and a third load-more that asks for
`skip = 12`. -/
theorem scenario_twelve_records_witness :
    (afterResetAndTwoLoadMore scenarioMockAtTen scenarioMockAtTen
      scenarioMockAtTen).currentPredictions.length = 12 ∧
    (loadMorePredictions scenarioMockAtTen
      (afterResetAndTwoLoadMore scenarioMockAtTen scenarioMockAtTen
        scenarioMockAtTen)).requests = [{ skip := 12, limit := 6 }] :=
  have h := scenario_twelve_records scenarioMockAtTen scenarioMockAtTen scenarioMockAtTen
    scenarioMockAtTen firstPage scenarioPage2 scenarioPage3
    (["a", "b", "c", "d", "e", "f"].map samplePrediction)
    (["e", "f", "g", "h", "i", "j"].map samplePrediction)
    (["k", "l"].map samplePrediction)
    { success1 := rfl, data1 := rfl, total1 := rfl, more1 := rfl,
      length1 := by decide, nodup1 := by decide,
      success2 := rfl, data2 := rfl, total2 := rfl, more2 := rfl,
      length2 := by decide, nodup2 := by decide, overlap2 := by decide,
      success3 := rfl, data3 := rfl, total3 := rfl, more3 := rfl,
      length3 := by decide, nodup3 := by decide, new3 := by decide }
    rfl rfl rfl
  ⟨h.2.2.2.2.2.1, h.2.2.2.2.2.2.2.2⟩

/-- C14 (counterexample): with the mock API as the scenario writes it (pages for
`skip` 0, 6 and 12), after the reset and two `loadMorePredictions` calls there are
10 records, not 14: the second call asked for `skip = 10`, for which the mock has
no page; `hasMorePredictions` is `true`; and a third call sends a request.  With
the three pages served in call order instead there are 12 records,
`hasMorePredictions` is `true`, and a third call sends a request. -/
theorem scenario_counterexample :
    (loadMorePredictions scenarioMock
      (loadMorePredictions scenarioMock
        (loadPredictionHistory true scenarioMock State.initial).state).state).requests
      = [{ skip := 10, limit := 6 }] ∧
    (afterResetAndTwoLoadMore scenarioMock scenarioMock scenarioMock).currentPredictions.length
      = 10 ∧
    (afterResetAndTwoLoadMore scenarioMock scenarioMock scenarioMock).hasMorePredictions
      = true ∧
    (loadMorePredictions scenarioMock
      (afterResetAndTwoLoadMore scenarioMock scenarioMock scenarioMock)).requests
      = [{ skip := 10, limit := 6 }] ∧
    (afterResetAndTwoLoadMore (Api.always firstPage) (Api.always scenarioPage2)
      (Api.always scenarioPage3)).currentPredictions.length = 12 ∧
    (afterResetAndTwoLoadMore (Api.always firstPage) (Api.always scenarioPage2)
      (Api.always scenarioPage3)).hasMorePredictions = true ∧
    (loadMorePredictions (Api.always scenarioPage3)
      (afterResetAndTwoLoadMore (Api.always firstPage) (Api.always scenarioPage2)
        (Api.always scenarioPage3))).requests = [{ skip := 12, limit := 6 }] := by
  decide

/-! ### The prediction form -/

/-- Reading a property after an assignment. -/
theorem PredictionData.get_set (data : PredictionData) (k f : String) (v : Value) :
    (data.set k v).get f = if k = f then some v else data.get f := by
  unfold PredictionData.set PredictionData.get
  by_cases ha : data.any (fun kv => kv.1 = k) = true
  · rw [if_pos ha, List.find?_map]
    have hpg : ((fun kv : String × Value => decide (kv.1 = f)) ∘
        fun kv : String × Value => if kv.1 = k then (k, v) else kv)
        = fun kv => decide (kv.1 = f) := by
      funext kv
      by_cases hk : kv.1 = k
      · simp [hk]
      · simp [hk]
    rw [hpg]
    cases hfind : data.find? (fun kv => decide (kv.1 = f)) with
    | none =>
      by_cases hf : k = f
      · exfalso
        obtain ⟨kv, hkv, hkey⟩ := List.any_eq_true.1 ha
        have := List.find?_eq_none.1 hfind kv hkv
        simp only [decide_eq_true_eq] at this hkey
        exact this (hkey.trans hf)
      · simp [hf]
    | some kv0 =>
      have hkey : kv0.1 = f := by simpa using List.find?_some hfind
      by_cases hf : k = f
      · simp [hf, hkey]
      · have hne : ¬ kv0.1 = k := fun e => hf (e.symm.trans hkey)
        simp [hf, hne]
  · rw [if_neg ha, List.find?_append]
    have hnone : ∀ kv ∈ data, ¬ kv.1 = k := by
      intro kv hkv e
      exact ha (List.any_eq_true.2 ⟨kv, hkv, by simpa using e⟩)
    by_cases hf : k = f
    · have hfind : data.find? (fun kv => decide (kv.1 = f)) = none := by
        rw [List.find?_eq_none]
        intro kv hkv
        have := hnone kv hkv
        simpa [← hf] using this
      rw [hfind]
      simp [hf]
    · cases hfind : data.find? (fun kv => decide (kv.1 = f)) with
      | none => simp [hf]
      | some kv => simp [hf]

/-- The object built from the entries of the form holds, for every name, the value
that the form submits for it. -/
theorem fromEntries_get (entries : List (String × String)) (field : String) :
    (fromEntries entries).get field = (formValue entries field).map Value.str := by
  induction entries using List.reverseRecOn with
  | nil => rfl
  | append_singleton rest kv ih =>
    have e1 : fromEntries (rest ++ [kv]) = (fromEntries rest).set kv.1 (Value.str kv.2) := by
      simp [fromEntries, List.foldl_append]
    rw [e1, PredictionData.get_set, ih]
    unfold formValue
    by_cases hf : kv.1 = field
    · simp [List.reverse_append, List.find?_cons, hf]
    · simp [List.reverse_append, List.find?_cons, hf]

/-- The test of line 182 fails a field exactly when the form does not submit it or
submits the empty string. -/
theorem failsRequired_fromEntries (entries : List (String × String)) (field : String) :
    failsRequired (fromEntries entries) field = missingOrEmpty entries field := by
  unfold failsRequired missingOrEmpty
  rw [fromEntries_get]
  cases h : formValue entries field with
  | none => simp [truthy]
  | some v =>
    by_cases hv : v = ""
    · simp [truthy, hv]
    · simp [truthy, hv]

/-- C15 (amended client-side validation): for every submitted form, when no request
is in progress, if one of the eight required fields is missing or empty then
`handlePredictionSubmit` reports the message `Please fill in the ... field` that
names the first such field and passes nothing to `makePrediction`; if none is, it
reports nothing and passes the form to `makePrediction`, its numeric fields
converted with `parseInt`, whatever their values.  While a request is in progress
it does nothing at all. -/
theorem submit_checks_required_fields_only (entries : List (String × String)) :
    handlePredictionSubmit true entries = { errors := [], predictions := [] } ∧
    (∀ first, requiredFields.find? (missingOrEmpty entries) = some first →
      handlePredictionSubmit false entries =
        { errors := [fillInMessage first], predictions := [] }) ∧
    (requiredFields.find? (missingOrEmpty entries) = none →
      handlePredictionSubmit false entries =
        { errors := []
          predictions := [numericFields.foldl convertNumeric (fromEntries entries)] }) := by
  have hfun : failsRequired (fromEntries entries) = missingOrEmpty entries :=
    funext (failsRequired_fromEntries entries)
  refine ⟨rfl, ?_, ?_⟩
  · intro first h
    simp [handlePredictionSubmit, hfun, h]
  · intro h
    simp [handlePredictionSubmit, hfun, h]

/-- The amended C15 on a form whose `lead_time_days` is empty and whose
`visit_month` is missing, and on a complete form with `visit_month` 13. -/
theorem submit_checks_required_fields_only_witness :
    requiredFields.find? (missingOrEmpty incompleteForm) = some "lead_time_days" ∧
    handlePredictionSubmit false incompleteForm =
      { errors := ["Please fill in the lead time_days field"], predictions := [] } ∧
    requiredFields.find? (missingOrEmpty outOfRangeForm) = none ∧
    (handlePredictionSubmit false outOfRangeForm).predictions.length = 1 :=
  ⟨by decide,
   (submit_checks_required_fields_only incompleteForm).2.1 "lead_time_days" (by decide),
   by decide,
   by rw [(submit_checks_required_fields_only outOfRangeForm).2.2 (by decide)]; rfl⟩

/-- C15 (counterexample): a form with every required field filled in, `visit_month`
13 and `party_size` 0, is not rejected: no message is reported and the form, with
`visit_month` 13 and `party_size` 0 as numbers, is passed to `makePrediction`. -/
theorem submit_out_of_range_counterexample :
    formValue outOfRangeForm "visit_month" = some "13" ∧
    formValue outOfRangeForm "party_size" = some "0" ∧
    (handlePredictionSubmit false outOfRangeForm).errors = [] ∧
    (handlePredictionSubmit false outOfRangeForm).predictions =
      [[("customer_name", Value.str "Ada"), ("party_size", Value.num 0),
        ("deposit_paid", Value.num 1), ("lead_time_days", Value.num 3),
        ("is_repeated_guest", Value.num 0), ("previous_cancellations", Value.num 0),
        ("special_requests_count", Value.num 2), ("visit_month", Value.num 13)]] := by
  decide

/-! ### The counter animation -/

/-! #### Rounding to a double -/

theorem ulpFrom_of_lt (fuel n u : Nat) (h : n / u < 2 ^ 53) : ulpFrom (fuel + 1) n u = u := by
  show (if n / u < 2 ^ 53 then u else ulpFrom fuel n (2 * u)) = u
  exact if_pos h

theorem ulpFrom_of_not_lt (fuel n u : Nat) (h : ¬ n / u < 2 ^ 53) :
    ulpFrom (fuel + 1) n u = ulpFrom fuel n (2 * u) := by
  show (if n / u < 2 ^ 53 then u else ulpFrom fuel n (2 * u)) = _
  exact if_neg h

/-- The doubling stops at a power of two of exponent at most `b` when `n / 2^b` has
at most 53 bits. -/
theorem ulpFrom_pow (n b : Nat) (hb : n / 2 ^ b < 2 ^ 53) (fuel s : Nat) (hs : s ≤ b)
    (hfuel : b - s < fuel) : ∃ s', s ≤ s' ∧ s' ≤ b ∧ ulpFrom fuel n (2 ^ s) = 2 ^ s' := by
  induction fuel generalizing s with
  | zero => omega
  | succ fuel ih =>
    by_cases h : n / 2 ^ s < 2 ^ 53
    · exact ⟨s, Nat.le_refl s, hs, ulpFrom_of_lt fuel n _ h⟩
    · have hne : s ≠ b := fun e => h (e ▸ hb)
      obtain ⟨s', h1, h2, h3⟩ := ih (s + 1) (by omega) (by omega)
      refine ⟨s', by omega, h2, ?_⟩
      rw [ulpFrom_of_not_lt fuel n _ h, ← h3, Nat.pow_succ, Nat.mul_comm]

/-- An integer of at most 53 bits, and `2^53`, is a double. -/
theorem roundQuotient_one (n : Nat) (h : n ≤ 2 ^ 53) : roundQuotient n 1 = n := by
  by_cases hlt : n < 2 ^ 53
  · have hu : ulpFrom 2048 n 1 = 1 := ulpFrom_of_lt 2047 _ 1 (by rw [Nat.div_one]; exact hlt)
    unfold roundQuotient
    simp only [Nat.div_one, hu, Nat.mul_one, Nat.mod_one, Nat.mul_zero]
    simp
  · have e : n = 2 ^ 53 := by omega
    subst e
    decide

theorem roundToDouble_of_le (x : Int) (h1 : -(2 ^ 53) ≤ x) (h2 : x ≤ 2 ^ 53) :
    roundToDouble x = x := by
  have hn : x.natAbs ≤ 2 ^ 53 := by omega
  unfold roundToDouble
  rw [roundQuotient_one _ hn]
  split <;> omega

/-- Rounding to a multiple of the unit `u` moves a quotient by 30 by at most half a
unit, and not at all when it is a multiple of the unit. -/
theorem round_step_near (a u : Nat) (hu : 0 < u) :
    30 * ((if 2 * (a % (30 * u)) > 30 * u then a / (30 * u) + 1
        else if 2 * (a % (30 * u)) < 30 * u then a / (30 * u)
        else if a / (30 * u) % 2 = 0 then a / (30 * u)
        else a / (30 * u) + 1) * u) ≤ a + 15 * u ∧
    a ≤ 30 * ((if 2 * (a % (30 * u)) > 30 * u then a / (30 * u) + 1
        else if 2 * (a % (30 * u)) < 30 * u then a / (30 * u)
        else if a / (30 * u) % 2 = 0 then a / (30 * u)
        else a / (30 * u) + 1) * u) + 15 * u ∧
    (a % (30 * u) = 0 →
      30 * ((if 2 * (a % (30 * u)) > 30 * u then a / (30 * u) + 1
        else if 2 * (a % (30 * u)) < 30 * u then a / (30 * u)
        else if a / (30 * u) % 2 = 0 then a / (30 * u)
        else a / (30 * u) + 1) * u) = a) := by
  have hdiv := Nat.div_add_mod a (30 * u)
  have hlt : a % (30 * u) < 30 * u := Nat.mod_lt _ (by omega)
  have hy : 30 * u * (a / (30 * u)) = 30 * (a / (30 * u) * u) := by ring
  rw [hy] at hdiv
  generalize a % (30 * u) = r at hdiv hlt ⊢
  generalize a / (30 * u) = m at hdiv ⊢
  have hy1 : (m + 1) * u = m * u + u := by ring
  split
  · rw [hy1]
    generalize m * u = y at hdiv ⊢
    omega
  · split
    · generalize m * u = y at hdiv ⊢
      omega
    · split
      · generalize m * u = y at hdiv ⊢
        omega
      · rw [hy1]
        generalize m * u = y at hdiv ⊢
        omega

/-- What rounding does to a quotient by 30 whose integer part has at most `53 + b`
bits: the result is within half a unit of the exact quotient, the unit being a
power of two of exponent at most `b`. -/
theorem roundQuotient_thirty_near (a b : Nat) (hb : a / 30 / 2 ^ b < 2 ^ 53)
    (hb2 : b < 2048) :
    ∃ s, s ≤ b ∧
      30 * roundQuotient a 30 ≤ a + 15 * 2 ^ s ∧
      a ≤ 30 * roundQuotient a 30 + 15 * 2 ^ s ∧
      (a % (30 * 2 ^ s) = 0 → 30 * roundQuotient a 30 = a) := by
  obtain ⟨s, _, hs, hu⟩ := ulpFrom_pow (a / 30) b hb 2048 0 (Nat.zero_le b) (by omega)
  rw [Nat.pow_zero] at hu
  refine ⟨s, hs, ?_⟩
  have h := round_step_near a (2 ^ s) (Nat.pow_pos (by decide))
  unfold roundQuotient
  simp only [hu]
  exact h

/-- A number within a sixteenth of `2^64` of `n * 2^64 / 30`, and equal to it when 30
divides `n`, has the integer part and the ceiling of `n / 30`. -/
theorem floor_ceil_of_near (n R u : Nat)
    (ha : 30 * R ≤ n * 2 ^ 64 + 15 * u) (hb : n * 2 ^ 64 ≤ 30 * R + 15 * u)
    (hu : u ≤ 2 ^ 60) (hex : n % 30 = 0 → 30 * R = n * 2 ^ 64) :
    R / 2 ^ 64 = n / 30 ∧ (R + 2 ^ 64 - 1) / 2 ^ 64 = (n + 29) / 30 := by
  by_cases h0 : n % 30 = 0
  · have hR : R = n / 30 * 2 ^ 64 := by
      have := hex h0
      omega
    have hc : (n + 29) / 30 = n / 30 := by omega
    rw [hc]
    constructor
    · rw [hR]
      exact Nat.mul_div_cancel _ (by decide)
    · apply Nat.div_eq_of_lt_le
      · omega
      · omega
  · have hρ1 : 1 ≤ n % 30 := by omega
    have hρ : n % 30 < 30 := Nat.mod_lt _ (by decide)
    have ha' : 30 * R ≤ (30 * (n / 30) + n % 30) * 2 ^ 64 + 15 * u := by
      rw [Nat.div_add_mod]
      exact ha
    have hb' : (30 * (n / 30) + n % 30) * 2 ^ 64 ≤ 30 * R + 15 * u := by
      rw [Nat.div_add_mod]
      exact hb
    have hc : (n + 29) / 30 = n / 30 + 1 := by omega
    rw [hc]
    generalize n / 30 = f at ha' hb' ⊢
    generalize n % 30 = ρ at ha' hb' hρ1 hρ
    have h1 : f * 2 ^ 64 < R := by omega
    have h2 : R < (f + 1) * 2 ^ 64 := by omega
    constructor
    · exact Nat.div_eq_of_lt_le (Nat.le_of_lt h1) h2
    · apply Nat.div_eq_of_lt_le
      · omega
      · omega

/-- For a difference of at most 54 bits the rounding of the quotient does not
change its ceiling: `Math.ceil(d / 30)` is the ceiling of the exact quotient. -/
theorem ceilOfQuotientBy30_eq (d : Int) (h1 : -(2 ^ 53) ≤ d) (h2 : d ≤ 2 ^ 53) :
    ceilOfQuotientBy30 d = -((-d) / 30) := by
  have hn : d.natAbs ≤ 2 ^ 53 := by omega
  have hb : d.natAbs * 2 ^ 64 / 30 / 2 ^ 60 < 2 ^ 53 := by omega
  obtain ⟨s, hs, ha, hb', hexact⟩ :=
    roundQuotient_thirty_near (d.natAbs * 2 ^ 64) 60 hb (by omega)
  have hu : 2 ^ s ≤ 2 ^ 60 := Nat.pow_le_pow_right (by decide) hs
  have hex : d.natAbs % 30 = 0 →
      30 * roundQuotient (d.natAbs * 2 ^ 64) 30 = d.natAbs * 2 ^ 64 := by
    intro h0
    apply hexact
    have e1 : d.natAbs = 30 * (d.natAbs / 30) := by omega
    have e2 : (2 : Nat) ^ 64 = 2 ^ s * 2 ^ (64 - s) := by
      rw [← Nat.pow_add]
      congr 1
      omega
    have e3 : d.natAbs * 2 ^ 64 = 30 * 2 ^ s * (d.natAbs / 30 * 2 ^ (64 - s)) := by
      rw [e2]
      generalize (2 : Nat) ^ s = u
      generalize (2 : Nat) ^ (64 - s) = w
      generalize d.natAbs / 30 = f at e1 ⊢
      rw [e1]
      ring
    rw [e3]
    exact Nat.mul_mod_right _ _
  obtain ⟨hfloor, hceil⟩ := floor_ceil_of_near d.natAbs _ _ ha hb' hu hex
  have key : ceilOfQuotientBy30 d =
      if d < 0 then -((d.natAbs / 30 : Nat) : Int)
      else (((d.natAbs + 29) / 30 : Nat) : Int) := by
    show (if d < 0 then -((roundQuotient (d.natAbs * 2 ^ 64) 30 / 2 ^ 64 : Nat) : Int)
      else (((roundQuotient (d.natAbs * 2 ^ 64) 30 + 2 ^ 64 - 1) / 2 ^ 64 : Nat) : Int)) = _
    rw [hfloor, hceil]
  rw [key]
  clear key hfloor hceil hex hexact ha hb' hu hb
  split
  · omega
  · omega

/-! #### The timer -/

/-- For start and target of at most 53 bits the increment is the ceiling of the
exact quotient, in integer arithmetic. -/
theorem counterFrom_increment_eq (startValue targetValue : Int)
    (hs : -(2 ^ 52) ≤ startValue ∧ startValue ≤ 2 ^ 52)
    (ht : -(2 ^ 52) ≤ targetValue ∧ targetValue ≤ 2 ^ 52) :
    (counterFrom startValue targetValue).increment = -((startValue - targetValue) / 30) := by
  show ceilOfQuotientBy30 (roundToDouble (targetValue - startValue)) = _
  rw [roundToDouble_of_le _ (by omega) (by omega),
    ceilOfQuotientBy30_eq _ (by omega) (by omega), neg_sub]

/-- The ceiling of a quotient by 30 in integer arithmetic. -/
theorem ceil_div_thirty (d : Int) : Int.ceil ((d : ℚ) / 30) = -((-d) / 30) := by
  have e : ((d : ℚ) / 30) = -(((-d : Int) : ℚ) / ((30 : Nat) : ℚ)) := by
    push_cast
    ring
  rw [e, Int.ceil_neg, Rat.floor_intCast_div_natCast]
  rfl

theorem Counter.tick_of_stopped (c : Counter) (h : c.running = false) : c.tick = c := by
  simp [Counter.tick, h]

theorem Counter.ticks_of_stopped (n : Nat) (c : Counter) (h : c.running = false) :
    Counter.ticks n c = c := by
  induction n with
  | zero => rfl
  | succ n ih =>
    show (Counter.ticks n c).tick = c
    rw [ih]
    exact Counter.tick_of_stopped c h

theorem Counter.ticks_add (m n : Nat) (c : Counter) :
    Counter.ticks (m + n) c = Counter.ticks n (Counter.ticks m c) := by
  induction n with
  | zero => rfl
  | succ n ih =>
    show (Counter.ticks (m + n) c).tick = (Counter.ticks n (Counter.ticks m c)).tick
    rw [ih]

/-- As long as the running value is a double below the target the timer keeps
running and writes the running value. -/
theorem counterFrom_ticks_below (startValue targetValue : Int) (j : Nat)
    (h : ∀ i, i < j →
      startValue + ((i : Int) + 1) * (counterFrom startValue targetValue).increment
        < targetValue ∧
      roundToDouble
        (startValue + ((i : Int) + 1) * (counterFrom startValue targetValue).increment)
        = startValue + ((i : Int) + 1) * (counterFrom startValue targetValue).increment) :
    Counter.ticks j (counterFrom startValue targetValue) =
      { targetValue := targetValue
        increment := (counterFrom startValue targetValue).increment
        currentValue := startValue + (j : Int) * (counterFrom startValue targetValue).increment
        running := true
        written := (List.range j).map (fun (i : Nat) =>
          startValue + ((i : Int) + 1) * (counterFrom startValue targetValue).increment) } := by
  induction j with
  | zero =>
    show counterFrom startValue targetValue = _
    simp [counterFrom]
  | succ j ih =>
    obtain ⟨hj, hround⟩ := h j (Nat.lt_succ_self j)
    show (Counter.ticks j (counterFrom startValue targetValue)).tick = _
    rw [ih (fun i hi => h i (Nat.lt_succ_of_lt hi))]
    have e : startValue + (j : Int) * (counterFrom startValue targetValue).increment
          + (counterFrom startValue targetValue).increment
        = startValue + ((j : Int) + 1) * (counterFrom startValue targetValue).increment := by
      ring
    have hlt : ¬ (startValue + ((j : Int) + 1) * (counterFrom startValue targetValue).increment
        ≥ targetValue) := not_le.2 hj
    simp only [Counter.tick, if_true, e, hround, hlt, if_false, List.range_succ,
      List.map_append, List.map_cons, List.map_nil, Nat.cast_succ]

/-- The firing at which the running value reaches the target writes the target and
clears the timer. -/
theorem counterFrom_ticks_reach (startValue targetValue : Int) (m : Nat)
    (h : ∀ i, i < m →
      startValue + ((i : Int) + 1) * (counterFrom startValue targetValue).increment
        < targetValue ∧
      roundToDouble
        (startValue + ((i : Int) + 1) * (counterFrom startValue targetValue).increment)
        = startValue + ((i : Int) + 1) * (counterFrom startValue targetValue).increment)
    (hm : targetValue ≤ roundToDouble
      (startValue + ((m : Int) + 1) * (counterFrom startValue targetValue).increment)) :
    (Counter.ticks (m + 1) (counterFrom startValue targetValue)).running = false ∧
    (Counter.ticks (m + 1) (counterFrom startValue targetValue)).written =
      (List.range m).map (fun (i : Nat) =>
        startValue + ((i : Int) + 1) * (counterFrom startValue targetValue).increment)
      ++ [targetValue] := by
  show (Counter.ticks m (counterFrom startValue targetValue)).tick.running = false ∧
    (Counter.ticks m (counterFrom startValue targetValue)).tick.written = _
  rw [counterFrom_ticks_below startValue targetValue m h]
  have e : startValue + (m : Int) * (counterFrom startValue targetValue).increment
        + (counterFrom startValue targetValue).increment
      = startValue + ((m : Int) + 1) * (counterFrom startValue targetValue).increment := by
    ring
  have hge : roundToDouble
      (startValue + ((m : Int) + 1) * (counterFrom startValue targetValue).increment)
      ≥ targetValue := hm
  simp [Counter.tick, e, hge]

/-- C16 (amended: `animateCounter` finishes on the exact target): for all integers
`startValue` and `targetValue` of magnitude at most `2^52`, the increment is
`ceil((targetValue - startValue) / 30)` and there is a number `k` of firings, at
least 1 and at most 30 (exactly 1 when `targetValue <= startValue`), such that the
timer is running before the `k`-th firing and cleared from then on, nothing is
written after it, the `k` values written are `startValue + i * increment` for
`i = 1, ..., k - 1` followed by `targetValue`, and when `targetValue > startValue`
the values written before `targetValue` are strictly increasing and below it. -/
theorem animateCounter_finishes (startValue targetValue : Int)
    (hs : -(2 ^ 52) ≤ startValue ∧ startValue ≤ 2 ^ 52)
    (ht : -(2 ^ 52) ≤ targetValue ∧ targetValue ≤ 2 ^ 52) :
    (counterFrom startValue targetValue).increment =
      Int.ceil (((targetValue - startValue : Int) : ℚ) / 30) ∧
    ∃ k : Nat, 1 ≤ k ∧ k ≤ 30 ∧
      (targetValue ≤ startValue → k = 1) ∧
      (∀ j, j < k →
        (Counter.ticks j (counterFrom startValue targetValue)).running = true) ∧
      (∀ j, k ≤ j →
        (Counter.ticks j (counterFrom startValue targetValue)).running = false ∧
        (Counter.ticks j (counterFrom startValue targetValue)).written =
          (Counter.ticks k (counterFrom startValue targetValue)).written) ∧
      (Counter.ticks k (counterFrom startValue targetValue)).written =
        (List.range (k - 1)).map (fun (i : Nat) =>
          startValue + ((i : Int) + 1) * (counterFrom startValue targetValue).increment)
        ++ [targetValue] ∧
      (Counter.ticks k (counterFrom startValue targetValue)).written.length = k ∧
      (Counter.ticks k (counterFrom startValue targetValue)).written.getLast?
        = some targetValue ∧
      (startValue < targetValue →
        (Counter.ticks k (counterFrom startValue targetValue)).written.dropLast.Pairwise
          (fun a b => a < b) ∧
        ∀ v ∈ (Counter.ticks k (counterFrom startValue targetValue)).written.dropLast,
          v < targetValue) := by
  have hinc := counterFrom_increment_eq startValue targetValue hs ht
  have hceil : (counterFrom startValue targetValue).increment =
      Int.ceil (((targetValue - startValue : Int) : ℚ) / 30) := by
    rw [hinc, ceil_div_thirty, neg_sub]
  refine ⟨hceil, ?_⟩
  have hcov : targetValue - startValue ≤
      30 * (counterFrom startValue targetValue).increment := by
    rw [hinc]
    omega
  have hup : 30 * (counterFrom startValue targetValue).increment ≤
      targetValue - startValue + 29 := by
    rw [hinc]
    omega
  clear hinc hceil
  have hex : ∃ m : Nat, targetValue ≤
      startValue + ((m : Int) + 1) * (counterFrom startValue targetValue).increment := by
    refine ⟨29, ?_⟩
    push_cast
    linarith
  have hm := Nat.find_spec hex
  have hmin : ∀ i, i < Nat.find hex →
      startValue + ((i : Int) + 1) * (counterFrom startValue targetValue).increment
        < targetValue := fun i hi => not_le.1 (Nat.find_min hex hi)
  have hle : Nat.find hex ≤ 29 := Nat.find_le (by push_cast; linarith)
  have hzero : targetValue ≤ startValue → Nat.find hex = 0 := by
    intro hts
    have h0 : Nat.find hex ≤ 0 := Nat.find_le (by
      push_cast
      have : targetValue ≤ startValue + (counterFrom startValue targetValue).increment := by
        omega
      linarith)
    omega
  generalize Nat.find hex = m at hm hmin hle hzero
  -- below the target every running value is a double
  have hbelow : ∀ i, i < m →
      startValue + ((i : Int) + 1) * (counterFrom startValue targetValue).increment
        < targetValue ∧
      roundToDouble
        (startValue + ((i : Int) + 1) * (counterFrom startValue targetValue).increment)
        = startValue + ((i : Int) + 1) * (counterFrom startValue targetValue).increment := by
    intro i hi
    have hlt := hmin i hi
    have h0 := hmin 0 (by omega)
    have hpos : 0 < (counterFrom startValue targetValue).increment := by
      simp only [Nat.cast_zero, zero_add, one_mul] at h0
      omega
    have hnn : 0 ≤ ((i : Int) + 1) * (counterFrom startValue targetValue).increment :=
      mul_nonneg (by omega) (le_of_lt hpos)
    refine ⟨hlt, roundToDouble_of_le _ ?_ ?_⟩
    · generalize ((i : Int) + 1) * (counterFrom startValue targetValue).increment = x
        at hlt hnn
      omega
    · generalize ((i : Int) + 1) * (counterFrom startValue targetValue).increment = x
        at hlt hnn
      omega
  -- the value that reaches the target is a double too
  have hprev : startValue + (m : Int) * (counterFrom startValue targetValue).increment
      ≤ 2 ^ 52 := by
    rcases Nat.eq_zero_or_pos m with h0 | hpos
    · subst h0
      simp only [Nat.cast_zero, zero_mul, add_zero]
      exact hs.2
    · obtain ⟨k, rfl⟩ := Nat.exists_eq_succ_of_ne_zero (Nat.pos_iff_ne_zero.1 hpos)
      have := hmin k (Nat.lt_succ_self k)
      push_cast
      omega
  have hlast : roundToDouble
      (startValue + ((m : Int) + 1) * (counterFrom startValue targetValue).increment)
      = startValue + ((m : Int) + 1) * (counterFrom startValue targetValue).increment := by
    have e : startValue + ((m : Int) + 1) * (counterFrom startValue targetValue).increment
        = startValue + (m : Int) * (counterFrom startValue targetValue).increment
          + (counterFrom startValue targetValue).increment := by ring
    apply roundToDouble_of_le
    · omega
    · rw [e]
      generalize (m : Int) * (counterFrom startValue targetValue).increment = x at hprev
      omega
  obtain ⟨hstop, hwritten⟩ :=
    counterFrom_ticks_reach startValue targetValue m hbelow (by rw [hlast]; exact hm)
  refine ⟨m + 1, by omega, by omega, ?_, ?_, ?_, ?_, ?_, ?_, ?_⟩
  · intro hts
    have := hzero hts
    omega
  · intro j hj
    rw [counterFrom_ticks_below startValue targetValue j
      (fun i hi => hbelow i (by omega))]
  · intro j hj
    obtain ⟨n, rfl⟩ := Nat.exists_eq_add_of_le hj
    rw [Counter.ticks_add, Counter.ticks_of_stopped n _ hstop]
    exact ⟨hstop, rfl⟩
  · rw [hwritten, Nat.add_sub_cancel]
  · rw [hwritten]
    simp
  · rw [hwritten]
    simp
  · intro hlt
    have hposinc : 0 < (counterFrom startValue targetValue).increment := by omega
    rw [hwritten, List.dropLast_concat]
    refine ⟨?_, ?_⟩
    · rw [List.pairwise_map]
      refine List.Pairwise.imp ?_ (List.pairwise_lt_range _)
      intro a b hab
      have hab2 : (a : Int) + 1 < (b : Int) + 1 := by exact_mod_cast Nat.succ_lt_succ hab
      have := mul_lt_mul_of_pos_right hab2 hposinc
      linarith
    · intro v hv
      obtain ⟨i, hi, rfl⟩ := List.mem_map.1 hv
      exact hmin i (List.mem_range.1 hi)

/-- The amended C16 from 0 to 100: the increment is 4, and the values written are
4, 8, ..., 96 and then 100, at the 25th firing. -/
theorem animateCounter_finishes_witness :
    (counterFrom 0 100).increment = 4 ∧
    (Counter.ticks 24 (counterFrom 0 100)).running = true ∧
    (Counter.ticks 25 (counterFrom 0 100)).running = false ∧
    (Counter.ticks 25 (counterFrom 0 100)).written =
      [4, 8, 12, 16, 20, 24, 28, 32, 36, 40, 44, 48, 52, 56, 60, 64, 68, 72, 76, 80, 84, 88,
       92, 96, 100] ∧
    (counterFrom 0 100).increment = Int.ceil (((100 - 0 : Int) : ℚ) / 30) :=
  ⟨by decide, by decide, by decide, by decide,
   (animateCounter_finishes 0 100 (by decide) (by decide)).1⟩

set_option maxRecDepth 100000 in
/-- C16 (counterexample): from 0 to 9317860787978910, which is a double, the
increment is 310595359599297, the exact thirtieth, yet the timer is still running
after 30 firings, because the sums above `2^53` are rounded down twice; it stops at
the 31st.  From `2^53` to `2^53 + 2`, both doubles, the increment is 1 and the
running value stays `2^53`: the timer is still running after 100 firings. -/
theorem animateCounter_counterexample :
    (counterFrom 0 9317860787978910).increment = 310595359599297 ∧
    roundToDouble 9317860787978910 = 9317860787978910 ∧
    (Counter.ticks 30 (counterFrom 0 9317860787978910)).running = true ∧
    (Counter.ticks 30 (counterFrom 0 9317860787978910)).currentValue = 9317860787978908 ∧
    (Counter.ticks 31 (counterFrom 0 9317860787978910)).running = false ∧
    roundToDouble 9007199254740992 = 9007199254740992 ∧
    roundToDouble 9007199254740994 = 9007199254740994 ∧
    (counterFrom 9007199254740992 9007199254740994).increment = 1 ∧
    (Counter.ticks 1 (counterFrom 9007199254740992 9007199254740994)).currentValue
      = 9007199254740992 ∧
    (Counter.ticks 100 (counterFrom 9007199254740992 9007199254740994)).running = true := by
  decide

/-- From 50 down to 20, and from the text `12 items` to 7, the counter writes the
target at the first firing. -/
theorem animateCounter_examples :
    (Counter.ticks 1 (counterFrom 50 20)).running = false ∧
    (Counter.ticks 1 (counterFrom 50 20)).written = [20] ∧
    startValueOf " 12 items" = 12 ∧
    (Counter.ticks 1 (animateCounter " 12 items" 7)).written = [7] := by
  decide

end App
